import Mathlib

/-!
# Metadata V14 (types/metadataV14.go)

A shallow embedding of the V14 metadata document of the Substrate RPC client:
its data model, the query operations over a decoded document and the
SCALE decode/encode methods, followed by theorems about them.

Conventions of the embedding
* a Go `string` / `Text` / `Bytes` / `[]byte` is a list of byte values (`List Nat`);
* `uint8`, `U8`, `U32` values are natural numbers, reduced modulo `2^w` where the
  source converts;
* a Go function returning `(value, error)` that can also stop with a run-time
  panic returns a `GoResult`.
-/

namespace MetadataV14Model

/-! ## Data model -/

/-- Go `string`, `Text`: a sequence of bytes. -/
abbrev Text := List Nat

/-- Go `Bytes` (`[]byte`). -/
abbrev Bytes := List Nat

/-- The byte of the separator `"."` given to `strings.Split`. -/
def dot : Nat := 46

/-- Go `type Si1LookupTypeId struct { U32 }`. (Fields the source names `Type` are `Typ`
here, `Type` being reserved.) -/
structure Si1LookupTypeId where
  U32 : Nat
deriving DecidableEq, Repr

/-- Go `SignedExtensionMetadataV14`. -/
structure SignedExtensionMetadataV14 where
  Identifier : Text
  Typ : Si1LookupTypeId
  AdditionalSigned : Si1LookupTypeId
deriving DecidableEq, Repr

/-- Go `ExtrinsicMetadataV14`. -/
structure ExtrinsicMetadataV14 where
  Typ : Si1LookupTypeId
  Version : Nat
  SignedExtensions : List SignedExtensionMetadataV14
deriving DecidableEq, Repr

/-- Go `Si1Field`. -/
structure Si1Field where
  HasName : Bool
  Name : Text
  Typ : Si1LookupTypeId
  HasTypeName : Bool
  TypeName : Text
  Docs : List Text
deriving DecidableEq, Repr

/-- Go `Si1TypeDefComposite`. -/
structure Si1TypeDefComposite where
  Fields : List Si1Field
deriving DecidableEq, Repr

/-- Go `Si1Variant`. -/
structure Si1Variant where
  Name : Text
  Fields : List Si1Field
  Index : Nat
  Docs : List Text
deriving DecidableEq, Repr

/-- Go `Si1TypeDefVariant`. -/
structure Si1TypeDefVariant where
  Variants : List Si1Variant
deriving DecidableEq, Repr

/-- Go `Si1TypeDefSequence`. -/
structure Si1TypeDefSequence where
  Typ : Si1LookupTypeId
deriving DecidableEq, Repr

/-- Go `Si1TypeDefArray`. -/
structure Si1TypeDefArray where
  Len : Nat
  Typ : Si1LookupTypeId
deriving DecidableEq, Repr

/-- Go `type Si1TypeDefTuple []Si1LookupTypeId`. -/
abbrev Si1TypeDefTuple := List Si1LookupTypeId

/-- Go `Si0TypeDefPrimitive`: one boolean flag per scalar kind. -/
structure Si0TypeDefPrimitive where
  IsBool : Bool
  IsChar : Bool
  IsStr : Bool
  IsU8 : Bool
  IsU16 : Bool
  IsU32 : Bool
  IsU64 : Bool
  IsU128 : Bool
  IsU256 : Bool
  IsI8 : Bool
  IsI16 : Bool
  IsI32 : Bool
  IsI64 : Bool
  IsI128 : Bool
  IsI256 : Bool
deriving DecidableEq, Repr

/-- Go `Si1TypeDefCompact`. -/
structure Si1TypeDefCompact where
  Typ : Si1LookupTypeId
deriving DecidableEq, Repr

/-- Go `Si1TypeDefBitSequence`. -/
structure Si1TypeDefBitSequence where
  BitStoreType : Si1LookupTypeId
  BitOrderType : Si1LookupTypeId
deriving DecidableEq, Repr

/-- Modelled from the spec: the type `Type` of the `AsHistoricMetaCompat` payload is
declared in another file of the package; the spec calls it an opaque legacy payload,
and it is a string type, so it is a `Text` here. -/
abbrev LegacyType := Text

/-- Go `Si1TypeDef`: an `Is*` flag and an `As*` payload for each of the nine cases. -/
structure Si1TypeDef where
  IsComposite : Bool
  AsComposite : Si1TypeDefComposite
  IsVariant : Bool
  AsVariant : Si1TypeDefVariant
  IsSequence : Bool
  AsSequence : Si1TypeDefSequence
  IsArray : Bool
  AsArray : Si1TypeDefArray
  IsTuple : Bool
  AsTuple : Si1TypeDefTuple
  IsPrimitive : Bool
  AsPrimitive : Si0TypeDefPrimitive
  IsCompact : Bool
  AsCompact : Si1TypeDefCompact
  IsBitSequence : Bool
  AsBitSequence : Si1TypeDefBitSequence
  IsHistoricMetaCompat : Bool
  AsHistoricMetaCompat : LegacyType
deriving DecidableEq, Repr

/-- Go `Si1TypeParameter`. -/
structure Si1TypeParameter where
  Name : Text
  HasType : Bool
  Typ : Si1LookupTypeId
deriving DecidableEq, Repr

/-- Go `Si1Type` (`Si1Path` is `[]Text`). -/
structure Si1Type where
  Path : List Text
  Params : List Si1TypeParameter
  Def : Si1TypeDef
  Docs : List Text
deriving DecidableEq, Repr

/-- Go `SiType`. -/
structure SiType where
  Id : Si1LookupTypeId
  Typ : Si1Type
deriving DecidableEq, Repr

/-- Go `PortableTypeV14`. -/
structure PortableTypeV14 where
  Types : List SiType
deriving DecidableEq, Repr

/-- Go `PalletCallMetadataV14`. -/
structure PalletCallMetadataV14 where
  Typ : Si1LookupTypeId
deriving DecidableEq, Repr

/-- Go `PalletEventMetadataV14`. -/
structure PalletEventMetadataV14 where
  Typ : Si1LookupTypeId
deriving DecidableEq, Repr

/-- Go `PalletConstantMetadataV14`. -/
structure PalletConstantMetadataV14 where
  Name : Text
  Typ : Si1LookupTypeId
  Value : Bytes
  Docs : List Text
deriving DecidableEq, Repr

/-- Go `PalletErrorMetadataV14`. -/
structure PalletErrorMetadataV14 where
  Typ : Si1LookupTypeId
deriving DecidableEq, Repr

/-- Modelled from the spec: `StorageFunctionModifierV0` is declared in another file of
the package; the spec describes the access modifier as an enum (Optional, Default, ...),
kept here in the flag style of the other tagged unions. -/
structure StorageFunctionModifierV0 where
  IsOptional : Bool
  IsDefault : Bool
  IsRequired : Bool
deriving DecidableEq, Repr

/-- Modelled from the spec: `StorageHasherV10` is declared in another file of the
package; the spec only says a map carries an ordered sequence of hasher kinds. -/
structure StorageHasherV10 where
  IsBlake2_128 : Bool
  IsBlake2_256 : Bool
  IsBlake2_128Concat : Bool
  IsTwox128 : Bool
  IsTwox256 : Bool
  IsTwox64Concat : Bool
  IsIdentity : Bool
deriving DecidableEq, Repr

/-- Go `MapTypeV14`. -/
structure MapTypeV14 where
  Hasher : List StorageHasherV10
  Key : Si1LookupTypeId
  Value : Si1LookupTypeId
deriving DecidableEq, Repr

/-- Go `StorageEntryTypeV14`. -/
structure StorageEntryTypeV14 where
  IsType : Bool
  AsType : Si1LookupTypeId
  IsMap : Bool
  AsMap : MapTypeV14
deriving DecidableEq, Repr

/-- Go `StorageEntryMetadataV14`. -/
structure StorageEntryMetadataV14 where
  Name : Text
  Modifier : StorageFunctionModifierV0
  Typ : StorageEntryTypeV14
  Fallback : Bytes
  Docs : List Text
deriving DecidableEq, Repr

/-- Go `PalletStorageMetadataV14`. -/
structure PalletStorageMetadataV14 where
  Prefix : Text
  Items : List StorageEntryMetadataV14
deriving DecidableEq, Repr

/-- Go `PalletMetadataV14`. -/
structure PalletMetadataV14 where
  Name : Text
  HasStorage : Bool
  Storage : PalletStorageMetadataV14
  HasCalls : Bool
  Calls : PalletCallMetadataV14
  HasEvents : Bool
  Events : PalletEventMetadataV14
  Constants : List PalletConstantMetadataV14
  HasErrors : Bool
  Errors : PalletErrorMetadataV14
  Index : Nat
deriving DecidableEq, Repr

/-- Go `MetadataV14`. -/
structure MetadataV14 where
  Lookup : PortableTypeV14
  Pallets : List PalletMetadataV14
  Extrinsic : ExtrinsicMetadataV14
  Typ : Si1LookupTypeId
deriving DecidableEq, Repr

/-- Go `CallIndex{SectionIndex, MethodIndex}`, two `uint8`. -/
structure CallIndex where
  SectionIndex : Nat
  MethodIndex : Nat
deriving DecidableEq, Repr

/-- Go `EventID`, a `[2]byte`. -/
structure EventID where
  pallet : Nat
  variant : Nat
deriving DecidableEq, Repr

/-! ## Outcome of a query -/

/-- The errors the query operations build with `fmt.Errorf`. -/
inductive QueryError where
  | methodNotFound
  | moduleNotFound
  | moduleIndexOutOfRange
  | storageNotFound
  | constantNotFound
deriving DecidableEq, Repr

/-- Outcome of a Go call returning `(value, error)`: a value with a nil error, a
non-nil error, or a run-time panic (index out of range). -/
inductive GoResult (α : Type) where
  | ok (v : α)
  | error (e : QueryError)
  | panic
deriving DecidableEq, Repr

/-! ## Query engine -/

/-- Go `strings.Split(s, ".")` for a one-byte separator: the pieces between the
separators; a string without separator gives the one-element slice `[s]`. -/
def strings.Split (sep : Nat) : Text → List Text
  | [] => [[]]
  | c :: cs =>
    if c = sep then [] :: strings.Split sep cs
    else
      match strings.Split sep cs with
      | [] => [[c]]
      | h :: t => (c :: h) :: t

/-- The inner loop of `FindCallIndex`: `for ci, f := range mod.Constants`, returning
`CallIndex{mod.Index, uint8(ci)}` at the first `f.Name == s[1]`. -/
def MetadataV14.FindCallIndex.scan (s1 : Text) (modIndex : Nat) :
    List PalletConstantMetadataV14 → Nat → Option CallIndex
  | [], _ => none
  | f :: fs, ci =>
    if f.Name = s1 then some ⟨modIndex, ci % 256⟩
    else MetadataV14.FindCallIndex.scan s1 modIndex fs (ci + 1)

/-- The outer loop of `FindCallIndex` over `m.Pallets`. Once a pallet with calls and
name `s[0]` is reached, `s[1]` is evaluated on every path (in the loop body when the
pallet has constants, in the error message otherwise): a slice `s` of length one
makes that an index-out-of-range panic. -/
def MetadataV14.FindCallIndex.loop (s : List Text) : List PalletMetadataV14 → GoResult CallIndex
  | [] =>
    match s[0]? with
    | none => .panic
    | some _ => .error .moduleNotFound
  | mod :: rest =>
    if !mod.HasCalls then MetadataV14.FindCallIndex.loop s rest
    else
      match s[0]? with
      | none => .panic
      | some s0 =>
        if mod.Name ≠ s0 then MetadataV14.FindCallIndex.loop s rest
        else
          match s[1]? with
          | none => .panic
          | some s1 =>
            match MetadataV14.FindCallIndex.scan s1 mod.Index mod.Constants 0 with
            | some ci => .ok ci
            | none => .error .methodNotFound

/-- Go `func (m *MetadataV14) FindCallIndex(call string) (CallIndex, error)`. -/
def MetadataV14.FindCallIndex (m : MetadataV14) (call : Text) : GoResult CallIndex :=
  MetadataV14.FindCallIndex.loop (strings.Split dot call) m.Pallets

/-- The loop of `FindEventNamesForEventID`; `mod.Constants[eventID[1]]` is an unchecked
index expression (the range check above it is commented out in the source). -/
def MetadataV14.FindEventNamesForEventID.loop (eventID : EventID) :
    List PalletMetadataV14 → GoResult (Text × Text)
  | [] => .error .moduleIndexOutOfRange
  | mod :: rest =>
    if !mod.HasEvents then MetadataV14.FindEventNamesForEventID.loop eventID rest
    else if mod.Index ≠ eventID.pallet then MetadataV14.FindEventNamesForEventID.loop eventID rest
    else
      match mod.Constants[eventID.variant]? with
      | none => .panic
      | some c => .ok (mod.Name, c.Name)

/-- Go `func (m *MetadataV14) FindEventNamesForEventID(eventID EventID) (Text, Text, error)`. -/
def MetadataV14.FindEventNamesForEventID (m : MetadataV14) (eventID : EventID) :
    GoResult (Text × Text) :=
  MetadataV14.FindEventNamesForEventID.loop eventID m.Pallets

/-- The inner loop of `FindStorageEntryMetadata` over `mod.Storage.Items`: `true` when
an item named `fn` is met (the source then returns `nil, nil`). -/
def MetadataV14.FindStorageEntryMetadata.scan (fn : Text) : List StorageEntryMetadataV14 → Bool
  | [] => false
  | s :: rest =>
    if s.Name ≠ fn then MetadataV14.FindStorageEntryMetadata.scan fn rest
    else true

/-- The outer loop of `FindStorageEntryMetadata`. The first component is the returned
`StorageEntryMetadata` interface value (`none` is Go `nil`), the second the error. -/
def MetadataV14.FindStorageEntryMetadata.loop (module fn : Text) :
    List PalletMetadataV14 → Option StorageEntryMetadataV14 × Option QueryError
  | [] => (none, some .moduleNotFound)
  | mod :: rest =>
    if !mod.HasStorage then MetadataV14.FindStorageEntryMetadata.loop module fn rest
    else if mod.Storage.Prefix ≠ module then MetadataV14.FindStorageEntryMetadata.loop module fn rest
    else if MetadataV14.FindStorageEntryMetadata.scan fn mod.Storage.Items then (none, none)
    else (none, some .storageNotFound)

/-- Go `func (m *MetadataV14) FindStorageEntryMetadata(module string, fn string)
(StorageEntryMetadata, error)`. -/
def MetadataV14.FindStorageEntryMetadata (m : MetadataV14) (module fn : Text) :
    Option StorageEntryMetadataV14 × Option QueryError :=
  MetadataV14.FindStorageEntryMetadata.loop module fn m.Pallets

/-- The loop of `PalletMetadataV14.FindConstantValue` over `m.Constants`. -/
def PalletMetadataV14.FindConstantValue.loop (constant : Text) :
    List PalletConstantMetadataV14 → GoResult Bytes
  | [] => .error .constantNotFound
  | cons :: rest =>
    if cons.Name = constant then .ok cons.Value
    else PalletMetadataV14.FindConstantValue.loop constant rest

/-- Go `func (m *PalletMetadataV14) FindConstantValue(constant Text) ([]byte, error)`. -/
def PalletMetadataV14.FindConstantValue (m : PalletMetadataV14) (constant : Text) : GoResult Bytes :=
  PalletMetadataV14.FindConstantValue.loop constant m.Constants

/-- The loop of `MetadataV14.FindConstantValue` over `m.Pallets`: a pallet named
`module` whose own lookup fails is skipped and the scan goes on. -/
def MetadataV14.FindConstantValue.loop (module constant : Text) :
    List PalletMetadataV14 → GoResult Bytes
  | [] => .error .constantNotFound
  | mod :: rest =>
    if mod.Name = module then
      match mod.FindConstantValue constant with
      | .ok value => .ok value
      | _ => MetadataV14.FindConstantValue.loop module constant rest
    else MetadataV14.FindConstantValue.loop module constant rest

/-- Go `func (m *MetadataV14) FindConstantValue(module Text, constant Text) ([]byte, error)`. -/
def MetadataV14.FindConstantValue (m : MetadataV14) (module constant : Text) : GoResult Bytes :=
  MetadataV14.FindConstantValue.loop module constant m.Pallets

/-- The loop of `ExistsModuleMetadata`. -/
def MetadataV14.ExistsModuleMetadata.loop (module : Text) : List PalletMetadataV14 → Bool
  | [] => false
  | mod :: rest =>
    if mod.Name = module then true
    else MetadataV14.ExistsModuleMetadata.loop module rest

/-- Go `func (m *MetadataV14) ExistsModuleMetadata(module string) bool`. -/
def MetadataV14.ExistsModuleMetadata (m : MetadataV14) (module : Text) : Bool :=
  MetadataV14.ExistsModuleMetadata.loop module m.Pallets


/-! ## Primitive codec

The package `scale` (byte cursor, fixed-width and compact integers, options,
sequences) is not part of this file of the repository; its operations are modelled
here as far as `metadataV14.go` calls them. A value whose type has a `Decode` or
`Encode` method is handled by that method; any other struct is read and written field
by field in declaration order, a slice as its compact length and its elements. -/

/-- The errors a decode call returns. -/
inductive DecodeError where
  | eof
  | unexpectedType (t : Nat)
  | unknownOptionPrefix (b : Nat)
  | lengthTooLarge
  | unexpectedModifier (t : Nat)
  | unexpectedHasher (t : Nat)
deriving DecidableEq, Repr

/-- A read from the decoder's byte cursor: the value and the input left unread, or an
error. -/
abbrev Decoder (α : Type) := List Nat → Except DecodeError (α × List Nat)

/-- Apply a function to the value a decoder yields. -/
def Decoder.map {α β : Type} (f : α → β) (d : Decoder α) : Decoder β := fun inp =>
  match d inp with
  | .error e => .error e
  | .ok (a, rest) => .ok (f a, rest)

/-- Modelled from the spec: `decoder.ReadOneByte` and `decoder.Decode(&t)` for a
`uint8`, one byte from the cursor; a truncated buffer is an error. -/
def ReadOneByte : Decoder Nat
  | [] => .error .eof
  | b :: rest => .ok (b, rest)

/-- Read `n` bytes from the cursor. -/
def readBytes : Nat → Decoder (List Nat)
  | 0 => fun inp => .ok ([], inp)
  | n + 1 => fun inp =>
    match ReadOneByte inp with
    | .error e => .error e
    | .ok (b, rest) =>
      match readBytes n rest with
      | .error e => .error e
      | .ok (bs, rest2) => .ok (b :: bs, rest2)

/-- The number a little-endian byte sequence denotes. -/
def leValue : List Nat → Nat
  | [] => 0
  | b :: bs => b + 256 * leValue bs

/-- Modelled from the spec: `decoder.Decode(&x)` for a fixed-width `U32`, four bytes in
little-endian order. -/
def decodeU32 : Decoder Nat :=
  Decoder.map leValue (readBytes 4)

/-- Modelled from the spec: `decoder.DecodeUintCompact`, the standard unsigned
variable-length integer: the two low bits of the first byte select a one-byte,
two-byte, four-byte or big-integer form (`(b >> 2) + 4` more bytes). -/
def DecodeUintCompact : Decoder Nat := fun inp =>
  match ReadOneByte inp with
  | .error e => .error e
  | .ok (b, rest) =>
    match b % 4 with
    | 0 => .ok (b / 4, rest)
    | 1 => Decoder.map (fun bs => leValue (b :: bs) / 4) (readBytes 1) rest
    | 2 => Decoder.map (fun bs => leValue (b :: bs) / 4) (readBytes 3) rest
    | _ => Decoder.map leValue (readBytes (b / 4 + 4)) rest

/-- Decode `n` consecutive elements. -/
def decodeItems {α : Type} (item : Decoder α) : Nat → Decoder (List α)
  | 0 => fun inp => .ok ([], inp)
  | n + 1 => fun inp =>
    match item inp with
    | .error e => .error e
    | .ok (a, rest) =>
      match decodeItems item n rest with
      | .error e => .error e
      | .ok (as, rest2) => .ok (a :: as, rest2)

/-- Modelled from the spec: `decoder.Decode(&xs)` for a slice, a compact length prefix
(at most `2^32 - 1`) followed by that many elements. -/
def decodeSlice {α : Type} (item : Decoder α) : Decoder (List α) := fun inp =>
  match DecodeUintCompact inp with
  | .error e => .error e
  | .ok (n, rest) =>
    if n > 4294967295 then .error .lengthTooLarge
    else decodeItems item n rest

/-- Modelled from the spec: `decoder.Decode(&s)` for a `Text` or `Bytes`, a
length-prefixed byte sequence. -/
def decodeText : Decoder Text :=
  decodeSlice ReadOneByte

/-- Modelled from the spec: `decoder.DecodeOption(&has, &value)`, a one-byte presence
flag (0 absent, 1 present) followed by the payload when present. `old` is the content
of `value` before the call, which an absent option leaves as it is. -/
def DecodeOption {α : Type} (item : Decoder α) (old : α) : Decoder (Bool × α) := fun inp =>
  match ReadOneByte inp with
  | .error e => .error e
  | .ok (b, rest) =>
    match b with
    | 0 => .ok ((false, old), rest)
    | 1 => Decoder.map (fun v => (true, v)) item rest
    | _ => .error (.unknownOptionPrefix b)

/-- The errors an encode call returns. -/
inductive EncodeError where
  | noCaseSelected
  | tooManyElements
  | compactTooLarge
deriving DecidableEq, Repr

/-- What an encode call does: the bytes it pushed to the encoder's writer and the
error it returned (`none` is Go `nil`). -/
structure Output where
  bytes : List Nat
  err : Option EncodeError
deriving DecidableEq, Repr

/-- A successful write of `bs`. -/
def Output.write (bs : List Nat) : Output := ⟨bs, none⟩

/-- A call returning `e` without writing. -/
def Output.fail (e : EncodeError) : Output := ⟨[], some e⟩

/-- Consecutive encode steps, each run only if every earlier one returned nil
(`if err != nil { return err }`). -/
def Output.seq : List Output → Output
  | [] => Output.write []
  | o :: os =>
    match o.err with
    | some e => ⟨o.bytes, some e⟩
    | none => ⟨o.bytes ++ (Output.seq os).bytes, (Output.seq os).err⟩

/-- Modelled from the spec: `encoder.PushByte(b)` and `encoder.Encode(x)` for a
`uint8`. -/
def encodeU8 (n : Nat) : Output :=
  Output.write [n % 256]

/-- Modelled from the spec: `encoder.Encode(b)` for a `bool`, one byte. -/
def encodeBool (b : Bool) : Output :=
  Output.write [if b then 1 else 0]

/-- Modelled from the spec: `encoder.Encode(x)` for a fixed-width `U32`, four bytes in
little-endian order. -/
def encodeU32 (n : Nat) : Output :=
  Output.write [n % 256, n / 256 % 256, n / 65536 % 256, n / 16777216 % 256]

/-- The little-endian bytes of `n`, at most `fuel` of them. -/
def leBytes : Nat → Nat → List Nat
  | 0, _ => []
  | fuel + 1, n => if n = 0 then [] else n % 256 :: leBytes fuel (n / 256)

/-- Modelled from the spec: `encoder.EncodeUintCompact`, the shortest of the four
compact forms; numbers of more than 67 bytes are refused. -/
def EncodeUintCompact (n : Nat) : Output :=
  if n < 64 then Output.write [n * 4]
  else if n < 16384 then Output.write [(n * 4 + 1) % 256, (n * 4 + 1) / 256]
  else if n < 1073741824 then
    Output.write [(n * 4 + 2) % 256, (n * 4 + 2) / 256 % 256, (n * 4 + 2) / 65536 % 256,
      (n * 4 + 2) / 16777216]
  else if 2 ^ 536 ≤ n then Output.fail .compactTooLarge
  else Output.write ((((leBytes 67 n).length - 4) * 4 + 3) :: leBytes 67 n)

/-- Modelled from the spec: `encoder.Encode(xs)` for a slice, the compact length (at
most `2^32 - 1`) followed by the elements. -/
def encodeSlice {α : Type} (item : α → Output) (xs : List α) : Output :=
  if xs.length > 4294967295 then Output.fail .tooManyElements
  else Output.seq (EncodeUintCompact xs.length :: xs.map item)

/-- Modelled from the spec: `encoder.Encode(s)` for a `Text` or `Bytes`. -/
def encodeText (s : Text) : Output :=
  encodeSlice encodeU8 s


/-- Run a decoder, then the decoder `k` builds from its value, on the input left. -/
def Decoder.andThen {α β : Type} (d : Decoder α) (k : α → Decoder β) : Decoder β := fun inp =>
  match d inp with
  | .error e => .error e
  | .ok (a, rest) => k a rest

/-- Yield a value without reading. -/
def Decoder.ret {α : Type} (a : α) : Decoder α := fun inp => .ok (a, inp)

/-- An in-place decode call whose receiver is observed after a failure as well: the
receiver after the call and the returned error, or the input left unread. -/
structure InPlace (T : Type) where
  target : T
  result : Except DecodeError (List Nat)

/-- Modelled from the spec: `decoder.Decode(&x)` for a type with a `Decode` method runs
the method on a new value and stores it into `x` only when the method returns nil. -/
def InPlace.toDecoded {T : Type} (r : InPlace T) : Except DecodeError (T × List Nat) :=
  match r.result with
  | .error e => .error e
  | .ok rest => .ok (r.target, rest)

/-! ## Zero values -/

/-- Zero value of `Si1LookupTypeId`. -/
def Si1LookupTypeId.zero : Si1LookupTypeId := ⟨0⟩

/-- Zero value of `Si0TypeDefPrimitive`: no flag set. -/
def Si0TypeDefPrimitive.zero : Si0TypeDefPrimitive :=
  ⟨false, false, false, false, false, false, false, false, false, false, false, false, false,
    false, false⟩

/-- Zero value of `Si1Field`. -/
def Si1Field.zero : Si1Field := ⟨false, [], Si1LookupTypeId.zero, false, [], []⟩

/-- Zero value of `Si1Variant`. -/
def Si1Variant.zero : Si1Variant := ⟨[], [], 0, []⟩

/-- Zero value of `Si1TypeDef`: no case selected. -/
def Si1TypeDef.zero : Si1TypeDef :=
  { IsComposite := false, AsComposite := ⟨[]⟩,
    IsVariant := false, AsVariant := ⟨[]⟩,
    IsSequence := false, AsSequence := ⟨Si1LookupTypeId.zero⟩,
    IsArray := false, AsArray := ⟨0, Si1LookupTypeId.zero⟩,
    IsTuple := false, AsTuple := [],
    IsPrimitive := false, AsPrimitive := Si0TypeDefPrimitive.zero,
    IsCompact := false, AsCompact := ⟨Si1LookupTypeId.zero⟩,
    IsBitSequence := false, AsBitSequence := ⟨Si1LookupTypeId.zero, Si1LookupTypeId.zero⟩,
    IsHistoricMetaCompat := false, AsHistoricMetaCompat := [] }

/-- Zero value of `Si1TypeParameter`. -/
def Si1TypeParameter.zero : Si1TypeParameter := ⟨[], false, Si1LookupTypeId.zero⟩

/-- Zero value of `StorageFunctionModifierV0`. -/
def StorageFunctionModifierV0.zero : StorageFunctionModifierV0 := ⟨false, false, false⟩

/-- Zero value of `StorageHasherV10`. -/
def StorageHasherV10.zero : StorageHasherV10 := ⟨false, false, false, false, false, false, false⟩

/-- Zero value of `MapTypeV14`. -/
def MapTypeV14.zero : MapTypeV14 := ⟨[], Si1LookupTypeId.zero, Si1LookupTypeId.zero⟩

/-- Zero value of `StorageEntryTypeV14`: no case selected. -/
def StorageEntryTypeV14.zero : StorageEntryTypeV14 :=
  ⟨false, Si1LookupTypeId.zero, false, MapTypeV14.zero⟩

/-- Zero value of `PalletStorageMetadataV14`. -/
def PalletStorageMetadataV14.zero : PalletStorageMetadataV14 := ⟨[], []⟩

/-- Zero value of `PalletMetadataV14`. -/
def PalletMetadataV14.zero : PalletMetadataV14 :=
  { Name := [], HasStorage := false, Storage := PalletStorageMetadataV14.zero,
    HasCalls := false, Calls := ⟨Si1LookupTypeId.zero⟩,
    HasEvents := false, Events := ⟨Si1LookupTypeId.zero⟩,
    Constants := [], HasErrors := false, Errors := ⟨Si1LookupTypeId.zero⟩, Index := 0 }

/-- Zero value of `ExtrinsicMetadataV14`. -/
def ExtrinsicMetadataV14.zero : ExtrinsicMetadataV14 := ⟨Si1LookupTypeId.zero, 0, []⟩

/-- Zero value of `MetadataV14`. -/
def MetadataV14.zero : MetadataV14 :=
  ⟨⟨[]⟩, [], ExtrinsicMetadataV14.zero, Si1LookupTypeId.zero⟩

/-! ## Decode methods -/

/-- Go `func (s *Si1LookupTypeId) Decode`: the compact integer `b`, stored as
`U32(b.Uint64())`. The receiver is overwritten as a whole. -/
def Si1LookupTypeId.Decode : Decoder Si1LookupTypeId :=
  Decoder.map (fun b => ⟨b % 18446744073709551616 % 4294967296⟩) DecodeUintCompact

/-- Go `func (s *Si1Field) Decode`, from the receiver `s` to the receiver after a call
returning nil. -/
def Si1Field.Decode (s : Si1Field) : Decoder Si1Field :=
  (DecodeOption decodeText s.Name).andThen fun name =>
  Si1LookupTypeId.Decode.andThen fun ty =>
  (DecodeOption decodeText s.TypeName).andThen fun typeName =>
  (decodeSlice decodeText).andThen fun docs =>
  Decoder.ret
    { HasName := name.1, Name := name.2, Typ := ty, HasTypeName := typeName.1,
      TypeName := typeName.2, Docs := docs }

/-- Go `func (s *Si1Variant) Decode`; the receiver is overwritten as a whole. -/
def Si1Variant.Decode : Decoder Si1Variant :=
  decodeText.andThen fun name =>
  (decodeSlice (Si1Field.Decode Si1Field.zero)).andThen fun fields =>
  ReadOneByte.andThen fun index =>
  (decodeSlice decodeText).andThen fun docs =>
  Decoder.ret { Name := name, Fields := fields, Index := index, Docs := docs }

/-- Go `func (s *Si0TypeDefPrimitive) Decode`. -/
def Si0TypeDefPrimitive.Decode (s : Si0TypeDefPrimitive) (inp : List Nat) :
    InPlace Si0TypeDefPrimitive :=
  match ReadOneByte inp with
  | .error e => ⟨s, .error e⟩
  | .ok (t, rest) =>
    match t with
    | 0 => ⟨{ s with IsBool := true }, .ok rest⟩
    | 1 => ⟨{ s with IsChar := true }, .ok rest⟩
    | 2 => ⟨{ s with IsStr := true }, .ok rest⟩
    | 3 => ⟨{ s with IsU8 := true }, .ok rest⟩
    | 4 => ⟨{ s with IsU16 := true }, .ok rest⟩
    | 5 => ⟨{ s with IsU32 := true }, .ok rest⟩
    | 6 => ⟨{ s with IsU64 := true }, .ok rest⟩
    | 7 => ⟨{ s with IsU128 := true }, .ok rest⟩
    | 8 => ⟨{ s with IsU256 := true }, .ok rest⟩
    | 9 => ⟨{ s with IsI8 := true }, .ok rest⟩
    | 10 => ⟨{ s with IsI16 := true }, .ok rest⟩
    | 11 => ⟨{ s with IsI32 := true }, .ok rest⟩
    | 12 => ⟨{ s with IsI64 := true }, .ok rest⟩
    | 13 => ⟨{ s with IsI128 := true }, .ok rest⟩
    | 14 => ⟨{ s with IsI256 := true }, .ok rest⟩
    | _ => ⟨s, .error (.unexpectedType t)⟩

/-- Go `decoder.Decode(&s.AsComposite)`: the struct has no method, its one field is a
slice of `Si1Field`. -/
def decodeSi1TypeDefComposite : Decoder Si1TypeDefComposite :=
  Decoder.map (fun fs => ⟨fs⟩) (decodeSlice (Si1Field.Decode Si1Field.zero))

/-- Go `decoder.Decode(&s.AsVariant)`. -/
def decodeSi1TypeDefVariant : Decoder Si1TypeDefVariant :=
  Decoder.map (fun vs => ⟨vs⟩) (decodeSlice Si1Variant.Decode)

/-- Go `decoder.Decode(&s.AsSequence)`. -/
def decodeSi1TypeDefSequence : Decoder Si1TypeDefSequence :=
  Decoder.map (fun t => ⟨t⟩) Si1LookupTypeId.Decode

/-- Go `decoder.Decode(&s.AsArray)`: a fixed-width `Len`, then the type id. -/
def decodeSi1TypeDefArray : Decoder Si1TypeDefArray :=
  decodeU32.andThen fun len =>
  Si1LookupTypeId.Decode.andThen fun t =>
  Decoder.ret ⟨len, t⟩

/-- Go `decoder.Decode(&s.AsTuple)`. -/
def decodeSi1TypeDefTuple : Decoder Si1TypeDefTuple :=
  decodeSlice Si1LookupTypeId.Decode

/-- Go `decoder.Decode(&s.AsPrimitive)`. -/
def decodeSi1TypeDefPrimitive : Decoder Si0TypeDefPrimitive := fun inp =>
  (Si0TypeDefPrimitive.Decode Si0TypeDefPrimitive.zero inp).toDecoded

/-- Go `decoder.Decode(&s.AsCompact)`. -/
def decodeSi1TypeDefCompact : Decoder Si1TypeDefCompact :=
  Decoder.map (fun t => ⟨t⟩) Si1LookupTypeId.Decode

/-- Go `decoder.Decode(&s.AsBitSequence)`. -/
def decodeSi1TypeDefBitSequence : Decoder Si1TypeDefBitSequence :=
  Si1LookupTypeId.Decode.andThen fun store =>
  Si1LookupTypeId.Decode.andThen fun order =>
  Decoder.ret ⟨store, order⟩

/-- Go `decoder.Decode(&s.AsHistoricMetaCompat)`. -/
def decodeLegacyType : Decoder LegacyType :=
  decodeText

/-- Go `func (s *Si1TypeDef) Decode`, from the receiver `s` to the receiver after a call
returning nil: the case's flag is set and its payload stored, nothing else is
written. -/
def Si1TypeDef.Decode (s : Si1TypeDef) : Decoder Si1TypeDef := fun inp =>
  match ReadOneByte inp with
  | .error e => .error e
  | .ok (t, rest) =>
    match t with
    | 0 => Decoder.map (fun v => { s with IsComposite := true, AsComposite := v })
        decodeSi1TypeDefComposite rest
    | 1 => Decoder.map (fun v => { s with IsVariant := true, AsVariant := v })
        decodeSi1TypeDefVariant rest
    | 2 => Decoder.map (fun v => { s with IsSequence := true, AsSequence := v })
        decodeSi1TypeDefSequence rest
    | 3 => Decoder.map (fun v => { s with IsArray := true, AsArray := v })
        decodeSi1TypeDefArray rest
    | 4 => Decoder.map (fun v => { s with IsTuple := true, AsTuple := v })
        decodeSi1TypeDefTuple rest
    | 5 => Decoder.map (fun v => { s with IsPrimitive := true, AsPrimitive := v })
        decodeSi1TypeDefPrimitive rest
    | 6 => Decoder.map (fun v => { s with IsCompact := true, AsCompact := v })
        decodeSi1TypeDefCompact rest
    | 7 => Decoder.map (fun v => { s with IsBitSequence := true, AsBitSequence := v })
        decodeSi1TypeDefBitSequence rest
    | 8 => Decoder.map (fun v => { s with IsHistoricMetaCompat := true, AsHistoricMetaCompat := v })
        decodeLegacyType rest
    | _ => .error (.unexpectedType t)

/-- Go `func (s *Si1TypeParameter) Decode`. -/
def Si1TypeParameter.Decode (s : Si1TypeParameter) : Decoder Si1TypeParameter :=
  decodeText.andThen fun name =>
  (DecodeOption Si1LookupTypeId.Decode s.Typ).andThen fun ty =>
  Decoder.ret { Name := name, HasType := ty.1, Typ := ty.2 }

/-- Go `decoder.Decode` of an `Si1Type`: `Path`, `Params`, `Def`, `Docs` in that order. -/
def decodeSi1Type : Decoder Si1Type :=
  (decodeSlice decodeText).andThen fun path =>
  (decodeSlice (Si1TypeParameter.Decode Si1TypeParameter.zero)).andThen fun params =>
  (Si1TypeDef.Decode Si1TypeDef.zero).andThen fun d =>
  (decodeSlice decodeText).andThen fun docs =>
  Decoder.ret { Path := path, Params := params, Def := d, Docs := docs }

/-- Go `decoder.Decode` of an `SiType`. -/
def decodeSiType : Decoder SiType :=
  Si1LookupTypeId.Decode.andThen fun id =>
  decodeSi1Type.andThen fun t =>
  Decoder.ret ⟨id, t⟩

/-- Go `decoder.Decode(&m.Lookup)`. -/
def decodePortableTypeV14 : Decoder PortableTypeV14 :=
  Decoder.map (fun ts => ⟨ts⟩) (decodeSlice decodeSiType)

/-- Modelled from the spec: the `Decode` method of `StorageFunctionModifierV0` is in
another file of the package; an enum, one discriminant byte. -/
def StorageFunctionModifierV0.Decode (s : StorageFunctionModifierV0) :
    Decoder StorageFunctionModifierV0 := fun inp =>
  match ReadOneByte inp with
  | .error e => .error e
  | .ok (t, rest) =>
    match t with
    | 0 => .ok ({ s with IsOptional := true }, rest)
    | 1 => .ok ({ s with IsDefault := true }, rest)
    | 2 => .ok ({ s with IsRequired := true }, rest)
    | _ => .error (.unexpectedModifier t)

/-- Modelled from the spec: the `Decode` method of `StorageHasherV10` is in another
file of the package; an enum, one discriminant byte. -/
def StorageHasherV10.Decode (s : StorageHasherV10) : Decoder StorageHasherV10 := fun inp =>
  match ReadOneByte inp with
  | .error e => .error e
  | .ok (t, rest) =>
    match t with
    | 0 => .ok ({ s with IsBlake2_128 := true }, rest)
    | 1 => .ok ({ s with IsBlake2_256 := true }, rest)
    | 2 => .ok ({ s with IsBlake2_128Concat := true }, rest)
    | 3 => .ok ({ s with IsTwox128 := true }, rest)
    | 4 => .ok ({ s with IsTwox256 := true }, rest)
    | 5 => .ok ({ s with IsTwox64Concat := true }, rest)
    | 6 => .ok ({ s with IsIdentity := true }, rest)
    | _ => .error (.unexpectedHasher t)

/-- Go `decoder.Decode(&s.AsMap)`: `Hasher`, `Key`, `Value`. -/
def decodeMapTypeV14 : Decoder MapTypeV14 :=
  (decodeSlice (StorageHasherV10.Decode StorageHasherV10.zero)).andThen fun hs =>
  Si1LookupTypeId.Decode.andThen fun key =>
  Si1LookupTypeId.Decode.andThen fun value =>
  Decoder.ret ⟨hs, key, value⟩

/-- Go `func (s *StorageEntryTypeV14) Decode`, from the receiver `s` to the receiver after
a call returning nil. -/
def StorageEntryTypeV14.Decode (s : StorageEntryTypeV14) : Decoder StorageEntryTypeV14 := fun inp =>
  match ReadOneByte inp with
  | .error e => .error e
  | .ok (t, rest) =>
    match t with
    | 0 => Decoder.map (fun v => { s with IsType := true, AsType := v }) Si1LookupTypeId.Decode rest
    | 1 => Decoder.map (fun v => { s with IsMap := true, AsMap := v }) decodeMapTypeV14 rest
    | _ => .error (.unexpectedType t)

/-- Go `decoder.Decode` of a `StorageEntryMetadataV14`: `Name`, `Modifier`, `Type`,
`Fallback`, `Docs`. -/
def decodeStorageEntryMetadataV14 : Decoder StorageEntryMetadataV14 :=
  decodeText.andThen fun name =>
  (StorageFunctionModifierV0.Decode StorageFunctionModifierV0.zero).andThen fun modifier =>
  (StorageEntryTypeV14.Decode StorageEntryTypeV14.zero).andThen fun ty =>
  decodeText.andThen fun fallback =>
  (decodeSlice decodeText).andThen fun docs =>
  Decoder.ret { Name := name, Modifier := modifier, Typ := ty, Fallback := fallback, Docs := docs }

/-- Go `decoder.Decode(&m.Storage)`. -/
def decodePalletStorageMetadataV14 : Decoder PalletStorageMetadataV14 :=
  decodeText.andThen fun pre =>
  (decodeSlice decodeStorageEntryMetadataV14).andThen fun items =>
  Decoder.ret ⟨pre, items⟩

/-- Go `decoder.Decode(&m.Calls)`. -/
def decodePalletCallMetadataV14 : Decoder PalletCallMetadataV14 :=
  Decoder.map (fun t => ⟨t⟩) Si1LookupTypeId.Decode

/-- Go `decoder.Decode(&m.Events)`. -/
def decodePalletEventMetadataV14 : Decoder PalletEventMetadataV14 :=
  Decoder.map (fun t => ⟨t⟩) Si1LookupTypeId.Decode

/-- Go `decoder.Decode(&m.Errors)`. -/
def decodePalletErrorMetadataV14 : Decoder PalletErrorMetadataV14 :=
  Decoder.map (fun t => ⟨t⟩) Si1LookupTypeId.Decode

/-- Go `decoder.Decode` of a `PalletConstantMetadataV14`: `Name`, `Type`, `Value`, `Docs`. -/
def decodePalletConstantMetadataV14 : Decoder PalletConstantMetadataV14 :=
  decodeText.andThen fun name =>
  Si1LookupTypeId.Decode.andThen fun ty =>
  decodeText.andThen fun value =>
  (decodeSlice decodeText).andThen fun docs =>
  Decoder.ret { Name := name, Typ := ty, Value := value, Docs := docs }

/-- Go `func (m *PalletMetadataV14) Decode`, from the receiver `m` to the receiver after a
call returning nil: name, the optional storage, calls and events, the constants, the
optional errors, the index. -/
def PalletMetadataV14.Decode (m : PalletMetadataV14) : Decoder PalletMetadataV14 :=
  decodeText.andThen fun name =>
  (DecodeOption decodePalletStorageMetadataV14 m.Storage).andThen fun storage =>
  (DecodeOption decodePalletCallMetadataV14 m.Calls).andThen fun calls =>
  (DecodeOption decodePalletEventMetadataV14 m.Events).andThen fun events =>
  (decodeSlice decodePalletConstantMetadataV14).andThen fun constants =>
  (DecodeOption decodePalletErrorMetadataV14 m.Errors).andThen fun errors =>
  ReadOneByte.andThen fun index =>
  Decoder.ret
    { Name := name, HasStorage := storage.1, Storage := storage.2,
      HasCalls := calls.1, Calls := calls.2, HasEvents := events.1, Events := events.2,
      Constants := constants, HasErrors := errors.1, Errors := errors.2, Index := index }

/-- Go `decoder.Decode` of a `SignedExtensionMetadataV14`. -/
def decodeSignedExtensionMetadataV14 : Decoder SignedExtensionMetadataV14 :=
  decodeText.andThen fun identifier =>
  Si1LookupTypeId.Decode.andThen fun ty =>
  Si1LookupTypeId.Decode.andThen fun additional =>
  Decoder.ret ⟨identifier, ty, additional⟩

/-- Go `func (e *ExtrinsicMetadataV14) Decode`: every field is overwritten. -/
def ExtrinsicMetadataV14.Decode : Decoder ExtrinsicMetadataV14 :=
  Si1LookupTypeId.Decode.andThen fun ty =>
  ReadOneByte.andThen fun version =>
  (decodeSlice decodeSignedExtensionMetadataV14).andThen fun exts =>
  Decoder.ret ⟨ty, version, exts⟩

/-- Go `func (m *MetadataV14) Decode`: `Lookup`, `Pallets`, `Extrinsic`, `Type`; every field
is overwritten. -/
def MetadataV14.Decode : Decoder MetadataV14 :=
  decodePortableTypeV14.andThen fun lookup =>
  (decodeSlice (PalletMetadataV14.Decode PalletMetadataV14.zero)).andThen fun pallets =>
  ExtrinsicMetadataV14.Decode.andThen fun extrinsic =>
  Si1LookupTypeId.Decode.andThen fun ty =>
  Decoder.ret ⟨lookup, pallets, extrinsic, ty⟩


/-! ## Encode methods -/

/-- Modelled from the spec: `encoder.Encode(x)` for an `Si1LookupTypeId`. The source
declares no `Encode` method for this type, so the encoder of the primitive codec writes
the struct field by field, and its one field is the fixed-width `U32`. -/
def encodeSi1LookupTypeId (s : Si1LookupTypeId) : Output :=
  encodeU32 s.U32

/-- Modelled from the spec: the `Encode` method of `StorageFunctionModifierV0` is in
another file of the package; the discriminant byte of the first flag set. -/
def StorageFunctionModifierV0.Encode (s : StorageFunctionModifierV0) : Output :=
  if s.IsOptional then encodeU8 0
  else if s.IsDefault then encodeU8 1
  else if s.IsRequired then encodeU8 2
  else Output.fail .noCaseSelected

/-- Modelled from the spec: the `Encode` method of `StorageHasherV10` is in another
file of the package; the discriminant byte of the first flag set. -/
def StorageHasherV10.Encode (s : StorageHasherV10) : Output :=
  if s.IsBlake2_128 then encodeU8 0
  else if s.IsBlake2_256 then encodeU8 1
  else if s.IsBlake2_128Concat then encodeU8 2
  else if s.IsTwox128 then encodeU8 3
  else if s.IsTwox256 then encodeU8 4
  else if s.IsTwox64Concat then encodeU8 5
  else if s.IsIdentity then encodeU8 6
  else Output.fail .noCaseSelected

/-- Go `encoder.Encode(s.AsMap)`: `Hasher`, `Key`, `Value`. -/
def encodeMapTypeV14 (m : MapTypeV14) : Output :=
  Output.seq
    [encodeSlice StorageHasherV10.Encode m.Hasher,
     encodeSi1LookupTypeId m.Key,
     encodeSi1LookupTypeId m.Value]

/-- Go `func (s StorageEntryTypeV14) Encode`. -/
def StorageEntryTypeV14.Encode (s : StorageEntryTypeV14) : Output :=
  if s.IsType then Output.seq [encodeU8 0, encodeSi1LookupTypeId s.AsType]
  else if s.IsMap then Output.seq [encodeU8 1, encodeMapTypeV14 s.AsMap]
  else Output.fail .noCaseSelected

/-- Go `encoder.Encode` of a `StorageEntryMetadataV14`: `Name`, `Modifier`, `Type`,
`Fallback`, `Docs`. -/
def encodeStorageEntryMetadataV14 (s : StorageEntryMetadataV14) : Output :=
  Output.seq
    [encodeText s.Name,
     s.Modifier.Encode,
     s.Typ.Encode,
     encodeText s.Fallback,
     encodeSlice encodeText s.Docs]

/-- Go `encoder.Encode(m.Storage)`. -/
def encodePalletStorageMetadataV14 (s : PalletStorageMetadataV14) : Output :=
  Output.seq [encodeText s.Prefix, encodeSlice encodeStorageEntryMetadataV14 s.Items]

/-- Go `encoder.Encode(m.Calls)`. -/
def encodePalletCallMetadataV14 (c : PalletCallMetadataV14) : Output :=
  encodeSi1LookupTypeId c.Typ

/-- Go `encoder.Encode(m.Events)`. -/
def encodePalletEventMetadataV14 (e : PalletEventMetadataV14) : Output :=
  encodeSi1LookupTypeId e.Typ

/-- Go `encoder.Encode(m.Errors)`. -/
def encodePalletErrorMetadataV14 (e : PalletErrorMetadataV14) : Output :=
  encodeSi1LookupTypeId e.Typ

/-- Go `encoder.Encode` of a `PalletConstantMetadataV14`: `Name`, `Type`, `Value`, `Docs`. -/
def encodePalletConstantMetadataV14 (c : PalletConstantMetadataV14) : Output :=
  Output.seq
    [encodeText c.Name,
     encodeSi1LookupTypeId c.Typ,
     encodeText c.Value,
     encodeSlice encodeText c.Docs]

/-- Go `func (m PalletMetadataV14) Encode`: the name; for storage, calls and events the
presence flag and, when set, the section; the constants; then `m.Errors` itself, with
no presence flag and whatever `m.HasErrors` is; the index. -/
def PalletMetadataV14.Encode (m : PalletMetadataV14) : Output :=
  Output.seq
    [encodeText m.Name,
     encodeBool m.HasStorage,
     if m.HasStorage then encodePalletStorageMetadataV14 m.Storage else Output.write [],
     encodeBool m.HasCalls,
     if m.HasCalls then encodePalletCallMetadataV14 m.Calls else Output.write [],
     encodeBool m.HasEvents,
     if m.HasEvents then encodePalletEventMetadataV14 m.Events else Output.write [],
     encodeSlice encodePalletConstantMetadataV14 m.Constants,
     encodePalletErrorMetadataV14 m.Errors,
     encodeU8 m.Index]

/-- Go `encoder.Encode` of a `SignedExtensionMetadataV14`. -/
def encodeSignedExtensionMetadataV14 (e : SignedExtensionMetadataV14) : Output :=
  Output.seq
    [encodeText e.Identifier,
     encodeSi1LookupTypeId e.Typ,
     encodeSi1LookupTypeId e.AdditionalSigned]

/-- Go `func (e ExtrinsicMetadataV14) Encode`. -/
def ExtrinsicMetadataV14.Encode (e : ExtrinsicMetadataV14) : Output :=
  Output.seq
    [encodeSi1LookupTypeId e.Typ,
     encodeU8 e.Version,
     encodeSlice encodeSignedExtensionMetadataV14 e.SignedExtensions]

/-- Go `func (m MetadataV14) Encode`: the pallets, then the extrinsic metadata. -/
def MetadataV14.Encode (m : MetadataV14) : Output :=
  Output.seq [encodeSlice PalletMetadataV14.Encode m.Pallets, m.Extrinsic.Encode]

/-! ## Auxiliary definitions for the statements -/

/-- The error of a result, `none` when it is a success. -/
def errorOf {ε α : Type} : Except ε α → Option ε
  | .error e => some e
  | .ok _ => none

/-- The error, if any, of decoding from `rest` the payload that `Si1TypeDef.Decode`
reads for the discriminant `t` (`AsComposite` for 0, ..., `AsHistoricMetaCompat` for 8). -/
def Si1TypeDef.payloadError (t : Nat) (rest : List Nat) : Option DecodeError :=
  match t with
  | 0 => errorOf (decodeSi1TypeDefComposite rest)
  | 1 => errorOf (decodeSi1TypeDefVariant rest)
  | 2 => errorOf (decodeSi1TypeDefSequence rest)
  | 3 => errorOf (decodeSi1TypeDefArray rest)
  | 4 => errorOf (decodeSi1TypeDefTuple rest)
  | 5 => errorOf (decodeSi1TypeDefPrimitive rest)
  | 6 => errorOf (decodeSi1TypeDefCompact rest)
  | 7 => errorOf (decodeSi1TypeDefBitSequence rest)
  | 8 => errorOf (decodeLegacyType rest)
  | _ => none

/-- The fifteen flags of an `Si0TypeDefPrimitive` in declaration order: Bool, Char, Str,
U8, U16, U32, U64, U128, U256, I8, I16, I32, I64, I128, I256. -/
def Si0TypeDefPrimitive.flags (s : Si0TypeDefPrimitive) : List Bool :=
  [s.IsBool, s.IsChar, s.IsStr, s.IsU8, s.IsU16, s.IsU32, s.IsU64, s.IsU128, s.IsU256,
   s.IsI8, s.IsI16, s.IsI32, s.IsI64, s.IsI128, s.IsI256]

/-- The nine `Is*` flags of an `Si1TypeDef` in declaration order: Composite, Variant,
Sequence, Array, Tuple, Primitive, Compact, BitSequence, HistoricMetaCompat. -/
def Si1TypeDef.flags (s : Si1TypeDef) : List Bool :=
  [s.IsComposite, s.IsVariant, s.IsSequence, s.IsArray, s.IsTuple, s.IsPrimitive,
   s.IsCompact, s.IsBitSequence, s.IsHistoricMetaCompat]

/-- The value `s` with the flag and the payload of case `t` reset to their zero values:
what `s` holds outside case `t`. -/
def Si1TypeDef.eraseCase (t : Nat) (s : Si1TypeDef) : Si1TypeDef :=
  match t with
  | 0 => { s with IsComposite := false, AsComposite := ⟨[]⟩ }
  | 1 => { s with IsVariant := false, AsVariant := ⟨[]⟩ }
  | 2 => { s with IsSequence := false, AsSequence := ⟨Si1LookupTypeId.zero⟩ }
  | 3 => { s with IsArray := false, AsArray := ⟨0, Si1LookupTypeId.zero⟩ }
  | 4 => { s with IsTuple := false, AsTuple := [] }
  | 5 => { s with IsPrimitive := false, AsPrimitive := Si0TypeDefPrimitive.zero }
  | 6 => { s with IsCompact := false, AsCompact := ⟨Si1LookupTypeId.zero⟩ }
  | 7 => { s with IsBitSequence := false,
                  AsBitSequence := ⟨Si1LookupTypeId.zero, Si1LookupTypeId.zero⟩ }
  | 8 => { s with IsHistoricMetaCompat := false, AsHistoricMetaCompat := [] }
  | _ => s

/-- The body of `func (s StorageEntryTypeV14) Encode` with its two payload calls taken
as parameters: `encType` stands for `encoder.Encode(s.AsType)` and `encMap` for
`encoder.Encode(s.AsMap)`. The tag bytes, the order of the cases and the error of the
default case are those of the source. -/
def StorageEntryTypeV14.EncodeWith (encType : Si1LookupTypeId → Output)
    (encMap : MapTypeV14 → Output) (s : StorageEntryTypeV14) : Output :=
  if s.IsType then Output.seq [encodeU8 0, encType s.AsType]
  else if s.IsMap then Output.seq [encodeU8 1, encMap s.AsMap]
  else Output.fail .noCaseSelected

/-- The body of `func (s *StorageEntryTypeV14) Decode` with its two payload calls taken
as parameters: `decType` stands for `decoder.Decode(&s.AsType)` and `decMap` for
`decoder.Decode(&s.AsMap)`. -/
def StorageEntryTypeV14.DecodeWith (decType : Decoder Si1LookupTypeId)
    (decMap : Decoder MapTypeV14) (s : StorageEntryTypeV14) : Decoder StorageEntryTypeV14 :=
  fun inp =>
  match ReadOneByte inp with
  | .error e => .error e
  | .ok (t, rest) =>
    match t with
    | 0 => Decoder.map (fun v => { s with IsType := true, AsType := v }) decType rest
    | 1 => Decoder.map (fun v => { s with IsMap := true, AsMap := v }) decMap rest
    | _ => .error (.unexpectedType t)

/-- Modelled from the spec: the wire encoding of a TypeId as the spec gives it, a
compact integer; the mirror of `Si1LookupTypeId.Decode`. The source declares no such
encoder (what it writes is `encodeSi1LookupTypeId`); it serves as a payload codec that
does round-trip. -/
def encodeSi1LookupTypeIdCompact (s : Si1LookupTypeId) : Output :=
  EncodeUintCompact s.U32

/-- Modelled from the spec: a `MapTypeV14` written with its type ids in the compact
form, the mirror of `decodeMapTypeV14`. -/
def encodeMapTypeV14Compact (m : MapTypeV14) : Output :=
  Output.seq
    [encodeSlice StorageHasherV10.Encode m.Hasher,
     encodeSi1LookupTypeIdCompact m.Key,
     encodeSi1LookupTypeIdCompact m.Value]

/-- The seven hasher values that have exactly one kind selected. -/
def StorageHasherV10.kinds : List StorageHasherV10 :=
  [⟨true, false, false, false, false, false, false⟩,
   ⟨false, true, false, false, false, false, false⟩,
   ⟨false, false, true, false, false, false, false⟩,
   ⟨false, false, false, true, false, false, false⟩,
   ⟨false, false, false, false, true, false, false⟩,
   ⟨false, false, false, false, false, true, false⟩,
   ⟨false, false, false, false, false, false, true⟩]

/-- A type id that fits the `U32` it is stored in. -/
def Si1LookupTypeId.inRange (x : Si1LookupTypeId) : Prop :=
  x.U32 < 4294967296

/-- A Map payload as a decode can produce it: every hasher has exactly one kind
selected and the type ids fit their `U32`. -/
def MapTypeV14.wellFormed (m : MapTypeV14) : Prop :=
  (∀ h ∈ m.Hasher, h ∈ StorageHasherV10.kinds) ∧ m.Hasher.length < 4294967296 ∧
    m.Key.inRange ∧ m.Value.inRange

/-! ## Example documents -/

/-- ASCII bytes of `System`. -/
def txtSystem : Text := [83, 121, 115, 116, 101, 109]

/-- ASCII bytes of `system`. -/
def txtSystemLower : Text := [115, 121, 115, 116, 101, 109]

/-- ASCII bytes of `BlockWeights`. -/
def txtBlockWeights : Text := [66, 108, 111, 99, 107, 87, 101, 105, 103, 104, 116, 115]

/-- ASCII bytes of `Nope`. -/
def txtNope : Text := [78, 111, 112, 101]

/-- ASCII bytes of `System.BlockWeights`. -/
def txtSystemBlockWeights : Text := txtSystem ++ dot :: txtBlockWeights

/-- The registry of the scenario: a single Primitive(U32) type at id 0. -/
def registryU32 : PortableTypeV14 :=
  ⟨[⟨⟨0⟩, ⟨[], [], { Si1TypeDef.zero with
      IsPrimitive := true,
      AsPrimitive := { Si0TypeDefPrimitive.zero with IsU32 := true } }, []⟩⟩]⟩

/-- A pallet `System` with the constant `("BlockWeights", type 0, value [0x00, 0x01])`,
calls, events and a storage section with prefix `System` and no items. -/
def palletSystem : PalletMetadataV14 :=
  { PalletMetadataV14.zero with
    Name := txtSystem,
    HasStorage := true, Storage := ⟨txtSystem, []⟩,
    HasCalls := true, HasEvents := true,
    Constants := [⟨txtBlockWeights, ⟨0⟩, [0, 1], []⟩] }

/-- The document of the scenario: the registry and the one pallet `System`. -/
def docSystem : MetadataV14 :=
  { MetadataV14.zero with Lookup := registryU32, Pallets := [palletSystem] }

/-- A constant named by the one byte `b`. -/
def constNamed (b : Nat) : PalletConstantMetadataV14 := ⟨[b], ⟨0⟩, [], []⟩

/-- A document whose one pallet `M` (index 3, calls enabled) has 257 constants: 256
named `x`, then one named `C`. -/
def docWide : MetadataV14 :=
  { MetadataV14.zero with
    Pallets := [{ PalletMetadataV14.zero with
      Name := [77], HasCalls := true, Index := 3,
      Constants := List.replicate 256 (constNamed 120) ++ [constNamed 67] }] }

/-- Wire bytes of an empty type registry (length prefix 0). -/
def wireRegistry : List Nat := [0]

/-- Wire bytes of a pallets + extrinsic segment: one pallet with an empty name, no
storage, calls, events or constants, an errors section that is present (flag 1, type
id 0) and index 0; then the extrinsic metadata (type id 0, version 4, no extensions). -/
def wireSegment : List Nat := [4, 0, 0, 0, 0, 0, 1, 0, 0, 0, 4, 0]

/-- The same segment with the errors section absent (flag 0). -/
def wireSegmentNoErrors : List Nat := [4, 0, 0, 0, 0, 0, 0, 0, 0, 4, 0]

/-- Wire bytes of the root type id 0. -/
def wireRoot : List Nat := [0]

/-- The document `wireRegistry ++ wireSegment ++ wireRoot` decodes to. -/
def docErrors : MetadataV14 :=
  { MetadataV14.zero with
    Pallets := [{ PalletMetadataV14.zero with HasErrors := true }],
    Extrinsic := ⟨⟨0⟩, 4, []⟩ }

/-- A pallet whose errors section is present with type id 5, all else zero. -/
def palletWithErrors : PalletMetadataV14 :=
  { PalletMetadataV14.zero with HasErrors := true, Errors := ⟨⟨5⟩⟩ }

/-- A storage entry type with the Map case selected whose one hasher has no kind
selected. -/
def entryTypeBadMap : StorageEntryTypeV14 :=
  ⟨false, Si1LookupTypeId.zero, true, ⟨[StorageHasherV10.zero], Si1LookupTypeId.zero,
    Si1LookupTypeId.zero⟩⟩

/-- The scenario document with another registry and another root type id. -/
def docSystemOtherRegistry : MetadataV14 :=
  { docSystem with Lookup := ⟨[]⟩, Typ := ⟨9⟩ }

/-- An `Si1TypeDef` that already has the Sequence case selected, with element type 7. -/
def typeDefSequence : Si1TypeDef :=
  { Si1TypeDef.zero with IsSequence := true, AsSequence := ⟨⟨7⟩⟩ }

/-- An extrinsic metadata value with envelope type id 5, version 4 and no signed
extensions. -/
def extrinsicFive : ExtrinsicMetadataV14 := ⟨⟨5⟩, 4, []⟩

/-! ## Lemmas on the scans -/

theorem Split_ne_nil (sep : Nat) (s : Text) : strings.Split sep s ≠ [] := by
  induction s with
  | nil => simp [strings.Split]
  | cons c cs ih =>
    unfold strings.Split
    split
    · simp
    · split
      · simp
      · simp

theorem Split_no_sep (sep : Nat) (s : Text) (h : sep ∉ s) : strings.Split sep s = [s] := by
  induction s with
  | nil => simp [strings.Split]
  | cons c cs ih =>
    have hc : c ≠ sep := fun e => h (by simp [e])
    have hcs : sep ∉ cs := fun e => h (by simp [e])
    unfold strings.Split
    rw [if_neg hc, ih hcs]

theorem Split_append_sep (sep : Nat) (a b : Text) (h : sep ∉ a) :
    strings.Split sep (a ++ sep :: b) = a :: strings.Split sep b := by
  induction a with
  | nil => simp [strings.Split]
  | cons c cs ih =>
    have hc : c ≠ sep := fun e => h (by simp [e])
    have hcs : sep ∉ cs := fun e => h (by simp [e])
    rw [List.cons_append]
    conv_lhs => unfold strings.Split
    rw [if_neg hc, ih hcs]

theorem Split_two (sep : Nat) (a b : Text) (ha : sep ∉ a) (hb : sep ∉ b) :
    strings.Split sep (a ++ sep :: b) = [a, b] := by
  rw [Split_append_sep sep a b ha, Split_no_sep sep b hb]

theorem scan_eq_findIdx (s1 : Text) (idx : Nat) (cs : List PalletConstantMetadataV14) (start : Nat) :
    MetadataV14.FindCallIndex.scan s1 idx cs start =
      (cs.findIdx? (fun f => decide (f.Name = s1)) start).map (fun i => ⟨idx, i % 256⟩) := by
  induction cs generalizing start with
  | nil => simp [MetadataV14.FindCallIndex.scan, List.findIdx?]
  | cons f fs ih =>
    unfold MetadataV14.FindCallIndex.scan
    by_cases hf : f.Name = s1
    · simp [hf, List.findIdx?]
    · simp [hf, List.findIdx?, ih]

theorem FindCallIndex_loop_ok (s0 s1 : Text) (tl : List Text) (ps : List PalletMetadataV14)
    (ci : CallIndex) (h : MetadataV14.FindCallIndex.loop (s0 :: s1 :: tl) ps = .ok ci) :
    ∃ p i, ps.find? (fun p => p.HasCalls && decide (p.Name = s0)) = some p ∧
      p.Constants.findIdx? (fun f => decide (f.Name = s1)) = some i ∧
      ci = ⟨p.Index, i % 256⟩ := by
  induction ps with
  | nil => simp [MetadataV14.FindCallIndex.loop] at h
  | cons mod rest ih =>
    unfold MetadataV14.FindCallIndex.loop at h
    by_cases hc : mod.HasCalls = true
    · by_cases hn : mod.Name = s0
      · simp only [hc, hn, Bool.not_true, Bool.false_eq_true, if_false, List.getElem?_cons_zero,
          ne_eq, not_true_eq_false, List.getElem?_cons_succ] at h
        rw [scan_eq_findIdx] at h
        cases hfi : List.findIdx? (fun f => decide (f.Name = s1)) mod.Constants 0 with
        | none => simp [hfi] at h
        | some i =>
          simp only [hfi, Option.map_some', GoResult.ok.injEq] at h
          refine ⟨mod, i, ?_, hfi, h.symm⟩
          simp [List.find?, hc, hn]
      · simp only [hc, Bool.not_true, Bool.false_eq_true, if_false, List.getElem?_cons_zero,
          ne_eq, hn, not_false_eq_true, if_true] at h
        obtain ⟨p, i, hp, hi, hci⟩ := ih h
        refine ⟨p, i, ?_, hi, hci⟩
        simp [List.find?, hc, hn, hp]
    · have hc2 : mod.HasCalls = false := by simpa using hc
      simp only [hc2, Bool.not_false, if_true] at h
      obtain ⟨p, i, hp, hi, hci⟩ := ih h
      refine ⟨p, i, ?_, hi, hci⟩
      simp [List.find?, hc2, hp]

theorem storage_scan_eq_any (fn : Text) (items : List StorageEntryMetadataV14) :
    MetadataV14.FindStorageEntryMetadata.scan fn items = items.any (fun s => decide (s.Name = fn)) := by
  induction items with
  | nil => rfl
  | cons s rest ih =>
    unfold MetadataV14.FindStorageEntryMetadata.scan
    by_cases hs : s.Name = fn
    · simp [hs]
    · simp [hs, ih]

theorem storage_loop_eq (module fn : Text) (ps : List PalletMetadataV14) :
    MetadataV14.FindStorageEntryMetadata.loop module fn ps =
      match ps.find? (fun p => p.HasStorage && decide (p.Storage.Prefix = module)) with
      | none => (none, some .moduleNotFound)
      | some p =>
        if p.Storage.Items.any (fun s => decide (s.Name = fn)) then (none, none)
        else (none, some .storageNotFound) := by
  induction ps with
  | nil => rfl
  | cons mod rest ih =>
    unfold MetadataV14.FindStorageEntryMetadata.loop
    by_cases hs : mod.HasStorage = true
    · by_cases hp : mod.Storage.Prefix = module
      · simp [List.find?, hs, hp, storage_scan_eq_any]
      · simp [List.find?, hs, hp, ih]
    · have hs2 : mod.HasStorage = false := by simpa using hs
      simp [List.find?, hs2, ih]

theorem pallet_constant_loop_eq (constant : Text) (cs : List PalletConstantMetadataV14) :
    PalletMetadataV14.FindConstantValue.loop constant cs =
      match cs.find? (fun c => decide (c.Name = constant)) with
      | some c => .ok c.Value
      | none => .error .constantNotFound := by
  induction cs with
  | nil => rfl
  | cons c rest ih =>
    unfold PalletMetadataV14.FindConstantValue.loop
    by_cases hc : c.Name = constant
    · simp [List.find?, hc]
    · simp [List.find?, hc, ih]

theorem constant_loop_eq (module constant : Text) (ps : List PalletMetadataV14) :
    MetadataV14.FindConstantValue.loop module constant ps =
      match ps.find? (fun p => decide (p.Name = module) &&
          p.Constants.any (fun c => decide (c.Name = constant))) with
      | some p =>
        (match p.Constants.find? (fun c => decide (c.Name = constant)) with
          | some c => .ok c.Value
          | none => .error .constantNotFound)
      | none => .error .constantNotFound := by
  induction ps with
  | nil => rfl
  | cons mod rest ih =>
    unfold MetadataV14.FindConstantValue.loop
    by_cases hn : mod.Name = module
    · cases hf : mod.Constants.find? (fun c => decide (c.Name = constant)) with
      | some c =>
        have hany : mod.Constants.any (fun c => decide (c.Name = constant)) = true := by
          have hsat := List.find?_some hf
          rw [List.any_eq_true]
          exact ⟨c, List.mem_of_find?_eq_some hf, hsat⟩
        simp [List.find?, hn, hany, PalletMetadataV14.FindConstantValue, pallet_constant_loop_eq, hf]
      | none =>
        have hany : mod.Constants.any (fun c => decide (c.Name = constant)) = false := by
          rw [List.find?_eq_none] at hf
          rw [List.any_eq_false]
          exact hf
        simp [List.find?, hn, hany, PalletMetadataV14.FindConstantValue, pallet_constant_loop_eq, hf, ih]
    · simp [List.find?, hn, ih]

theorem exists_loop_eq_any (module : Text) (ps : List PalletMetadataV14) :
    MetadataV14.ExistsModuleMetadata.loop module ps = (ps.map (fun p => p.Name)).contains module := by
  induction ps with
  | nil => rfl
  | cons mod rest ih =>
    unfold MetadataV14.ExistsModuleMetadata.loop
    by_cases hn : mod.Name = module
    · simp [hn]
    · have hn2 : ¬ module = mod.Name := fun e => hn e.symm
      simp [hn, ih, List.contains_cons, hn2]

/-! ## Theorems on the query engine -/

/-- C2 (evaluation at the failing input): on the document with the one pallet `System`
(calls enabled), the call string `System`, which has no separator, splits into a slice
of length one and `FindCallIndex` stops with an index-out-of-range panic instead of
returning a NotFound error. -/
theorem FindCallIndex_panics_without_separator :
    strings.Split dot txtSystem = [txtSystem] ∧
      MetadataV14.FindCallIndex docSystem txtSystem = .panic := by
  decide

/-- C3 (evaluation at the failing input): the pallet `System` has events enabled,
declared index 0 and one constant; for the event id `(0, 1)` the position 1 is not
valid and `FindEventNamesForEventID` stops with an index-out-of-range panic instead of
returning a NotFound error. -/
theorem FindEventNamesForEventID_panics_out_of_range :
    MetadataV14.FindEventNamesForEventID docSystem ⟨0, 1⟩ = .panic := by
  decide

/-- C4: `FindConstantValue(module, constant)` succeeds exactly when some pallet named
`module` has a constant named `constant`; it then returns the `Value` of the first such
constant of the first pallet named `module` that has one, and otherwise it returns the
NotFound error. -/
theorem FindConstantValue_spec (m : MetadataV14) (module constant : Text) :
    ((∃ v, m.FindConstantValue module constant = .ok v) ↔
        ∃ p ∈ m.Pallets, p.Name = module ∧ ∃ c ∈ p.Constants, c.Name = constant) ∧
    (∀ p c,
        m.Pallets.find? (fun p => decide (p.Name = module) &&
          p.Constants.any (fun c => decide (c.Name = constant))) = some p →
        p.Constants.find? (fun c => decide (c.Name = constant)) = some c →
        m.FindConstantValue module constant = .ok c.Value) ∧
    ((¬ ∃ p ∈ m.Pallets, p.Name = module ∧ ∃ c ∈ p.Constants, c.Name = constant) →
        m.FindConstantValue module constant = .error .constantNotFound) := by
  have hnone : (¬ ∃ p ∈ m.Pallets, p.Name = module ∧ ∃ c ∈ p.Constants, c.Name = constant) →
      m.FindConstantValue module constant = .error .constantNotFound := by
    intro hno
    have hf : m.Pallets.find? (fun p => decide (p.Name = module) &&
        p.Constants.any (fun c => decide (c.Name = constant))) = none := by
      rw [List.find?_eq_none]
      intro p hp hsat
      simp only [Bool.and_eq_true, decide_eq_true_eq, List.any_eq_true] at hsat
      exact hno ⟨p, hp, hsat.1, hsat.2⟩
    unfold MetadataV14.FindConstantValue
    rw [constant_loop_eq, hf]
  refine ⟨⟨?_, ?_⟩, ?_, hnone⟩
  · rintro ⟨v, hv⟩
    by_contra hno
    rw [hnone hno] at hv
    cases hv
  · rintro ⟨p, hp, hname, c, hc, hcn⟩
    unfold MetadataV14.FindConstantValue
    rw [constant_loop_eq]
    cases hf : m.Pallets.find? (fun p => decide (p.Name = module) &&
        p.Constants.any (fun c => decide (c.Name = constant))) with
    | none =>
      rw [List.find?_eq_none] at hf
      exact absurd (by simp only [Bool.and_eq_true, decide_eq_true_eq, List.any_eq_true]
                       exact ⟨hname, c, hc, hcn⟩) (hf p hp)
    | some q =>
      have hq := List.find?_some hf
      simp only [Bool.and_eq_true, decide_eq_true_eq, List.any_eq_true] at hq
      obtain ⟨_, d, hd, hdn⟩ := hq
      cases hg : q.Constants.find? (fun c => decide (c.Name = constant)) with
      | none =>
        rw [List.find?_eq_none] at hg
        exact absurd (by simpa using hdn) (hg d hd)
      | some e =>
        refine ⟨e.Value, ?_⟩
        simp only [hg]
  · intro p c hp hc
    unfold MetadataV14.FindConstantValue
    rw [constant_loop_eq, hp]
    simp only [hc]

/-- C4 at the scenario of the spec: one pallet `System` with the constant
`("BlockWeights", type 0, value [0x00, 0x01])` gives `[0x00, 0x01]` for
`("System", "BlockWeights")` and NotFound for `("System", "Nope")`. -/
theorem FindConstantValue_spec_witness :
    docSystem.FindConstantValue txtSystem txtBlockWeights = .ok [0, 1] ∧
      docSystem.FindConstantValue txtSystem txtNope = .error .constantNotFound :=
  ⟨(FindConstantValue_spec docSystem txtSystem txtBlockWeights).2.1 palletSystem
      ⟨txtBlockWeights, ⟨0⟩, [0, 1], []⟩ (by decide) (by decide),
    (FindConstantValue_spec docSystem txtSystem txtNope).2.2 (by decide)⟩

/-- C5: `ExistsModuleMetadata(name)` is true exactly when some pallet of the document
has a name equal, byte for byte, to `name`; two documents whose pallets carry the same
names in the same order give the same answer, whatever their other fields are. -/
theorem ExistsModuleMetadata_spec (m : MetadataV14) (name : Text) :
    (m.ExistsModuleMetadata name = true ↔ ∃ p ∈ m.Pallets, p.Name = name) ∧
    (∀ m2 : MetadataV14, m2.Pallets.map (fun p => p.Name) = m.Pallets.map (fun p => p.Name) →
        m2.ExistsModuleMetadata name = m.ExistsModuleMetadata name) := by
  constructor
  · unfold MetadataV14.ExistsModuleMetadata
    rw [exists_loop_eq_any]
    rw [List.contains_iff_exists_mem_beq]
    constructor
    · rintro ⟨a, ha, hbeq⟩
      obtain ⟨p, hp, rfl⟩ := List.mem_map.mp ha
      exact ⟨p, hp, (beq_iff_eq.mp hbeq).symm⟩
    · rintro ⟨p, hp, h⟩
      exact ⟨p.Name, List.mem_map.mpr ⟨p, hp, rfl⟩, beq_iff_eq.mpr h.symm⟩
  · intro m2 h
    unfold MetadataV14.ExistsModuleMetadata
    rw [exists_loop_eq_any, exists_loop_eq_any, h]

/-- C5 at a concrete document: `System` exists, `system` (another case) does not, and a
document with the same pallet name and nothing else agrees. -/
theorem ExistsModuleMetadata_spec_witness :
    docSystem.ExistsModuleMetadata txtSystem = true ∧
      docSystem.ExistsModuleMetadata txtSystemLower = false ∧
      MetadataV14.ExistsModuleMetadata
        { MetadataV14.zero with Pallets := [{ PalletMetadataV14.zero with Name := txtSystem }] }
        txtSystem = docSystem.ExistsModuleMetadata txtSystem :=
  ⟨(ExistsModuleMetadata_spec docSystem txtSystem).1.2 ⟨palletSystem, by decide, by decide⟩,
    by decide,
    (ExistsModuleMetadata_spec docSystem txtSystem).2 _ (by decide)⟩

/-- C6: `FindStorageEntryMetadata(module, fn)` always returns a nil entry; its error is
nil exactly when the first pallet that has a storage section with `Prefix` equal to
`module` contains an item named `fn`; it is the module-not-found error when no pallet
has such a section and the storage-not-found error when that first pallet has no such
item. -/
theorem FindStorageEntryMetadata_spec (m : MetadataV14) (module fn : Text) :
    (m.FindStorageEntryMetadata module fn).1 = none ∧
    ((m.FindStorageEntryMetadata module fn).2 = none ↔
        ∃ p, m.Pallets.find? (fun p => p.HasStorage && decide (p.Storage.Prefix = module)) = some p ∧
          ∃ s ∈ p.Storage.Items, s.Name = fn) ∧
    (m.Pallets.find? (fun p => p.HasStorage && decide (p.Storage.Prefix = module)) = none →
        (m.FindStorageEntryMetadata module fn).2 = some .moduleNotFound) ∧
    (∀ p, m.Pallets.find? (fun p => p.HasStorage && decide (p.Storage.Prefix = module)) = some p →
        (¬ ∃ s ∈ p.Storage.Items, s.Name = fn) →
        (m.FindStorageEntryMetadata module fn).2 = some .storageNotFound) := by
  unfold MetadataV14.FindStorageEntryMetadata
  rw [storage_loop_eq]
  cases hf : m.Pallets.find? (fun p => p.HasStorage && decide (p.Storage.Prefix = module)) with
  | none => simp
  | some q =>
    by_cases hany : q.Storage.Items.any (fun s => decide (s.Name = fn)) = true
    · have hex : ∃ s ∈ q.Storage.Items, s.Name = fn := by
        simpa [List.any_eq_true] using hany
      simp [hany, hex]
    · have hex : ¬ ∃ s ∈ q.Storage.Items, s.Name = fn := by
        simpa [List.any_eq_true] using hany
      simp only [hany]
      refine ⟨by simp, ?_, by simp, ?_⟩
      · constructor
        · intro h
          simp at h
        · rintro ⟨p, hp, hs⟩
          cases hp
          exact absurd hs hex
      · intro p hp _
        simp

/-- C6 at concrete inputs: in the document whose pallet `System` has a storage section
with prefix `System` and no items, looking up an item gives the storage-not-found
error, and looking up another module gives the module-not-found error. -/
theorem FindStorageEntryMetadata_spec_witness :
    (docSystem.FindStorageEntryMetadata txtSystem txtNope).2 = some .storageNotFound ∧
      (docSystem.FindStorageEntryMetadata txtNope txtNope).2 = some .moduleNotFound :=
  ⟨(FindStorageEntryMetadata_spec docSystem txtSystem txtNope).2.2.2 palletSystem (by decide)
      (by decide),
    (FindStorageEntryMetadata_spec docSystem txtNope txtNope).2.2.1 (by decide)⟩

set_option maxRecDepth 100000 in
/-- C7 (evaluation at the failing input): in `docWide` the first entry named `C` of the
pallet `M` is at position 256 of its `Constants`; `FindCallIndex` on `M.C` returns nil
and the position 0, which is the position of another entry (`uint8(ci)` wraps). -/
theorem FindCallIndex_position_wraps :
    MetadataV14.FindCallIndex docWide [77, 46, 67] = .ok ⟨3, 0⟩ ∧
      docWide.Pallets.find? (fun p => p.HasCalls && decide (p.Name = [77])) =
        some { PalletMetadataV14.zero with
          Name := [77], HasCalls := true, Index := 3,
          Constants := List.replicate 256 (constNamed 120) ++ [constNamed 67] } ∧
      (List.replicate 256 (constNamed 120) ++ [constNamed 67]).findIdx?
        (fun f => decide (f.Name = [67])) = some 256 := by
  decide

/-- The result of a successful `FindCallIndex` on `M.C`: the declared `Index` of the
first pallet in wire order that has calls enabled and whose name equals `M`, and the
`uint8` conversion of the zero-based position of the first entry named `C` in that
pallet; below 256 this is the position itself. -/
theorem FindCallIndex_ok_position (m : MetadataV14) (M C : Text) (ci : CallIndex)
    (hM : dot ∉ M) (hC : dot ∉ C)
    (h : m.FindCallIndex (M ++ dot :: C) = .ok ci) :
    ∃ p i, m.Pallets.find? (fun p => p.HasCalls && decide (p.Name = M)) = some p ∧
      p.Constants.findIdx? (fun f => decide (f.Name = C)) = some i ∧
      ci = ⟨p.Index, i % 256⟩ ∧ (i < 256 → ci = ⟨p.Index, i⟩) := by
  unfold MetadataV14.FindCallIndex at h
  rw [Split_two dot M C hM hC] at h
  obtain ⟨p, i, hp, hi, hci⟩ := FindCallIndex_loop_ok M C [] m.Pallets ci h
  refine ⟨p, i, hp, hi, hci, fun hlt => ?_⟩
  rw [hci, Nat.mod_eq_of_lt hlt]

/-- The lemma above at a concrete input: `System.BlockWeights` on the scenario document
resolves to `(0, 0)`. -/
theorem FindCallIndex_ok_position_witness :
    ∃ p i, docSystem.Pallets.find? (fun p => p.HasCalls && decide (p.Name = txtSystem)) = some p ∧
      p.Constants.findIdx? (fun f => decide (f.Name = txtBlockWeights)) = some i ∧
      (⟨0, 0⟩ : CallIndex) = ⟨p.Index, i % 256⟩ ∧ (i < 256 → (⟨0, 0⟩ : CallIndex) = ⟨p.Index, i⟩) :=
  FindCallIndex_ok_position docSystem txtSystem txtBlockWeights ⟨0, 0⟩ (by decide) (by decide)
    (by decide)

/-! ## Theorems on the codec -/

theorem PalletMetadataV14_Encode_ignores_HasErrors (m : PalletMetadataV14) (b : Bool) :
    PalletMetadataV14.Encode { m with HasErrors := b } = PalletMetadataV14.Encode m :=
  rfl

/-- C8: `Si1TypeDef.Decode` fails with the unexpected-type error for every input whose
leading byte is above 8, whatever follows; for a leading byte in 0..8 it fails exactly
when decoding the payload of that case fails, and with the error of that payload. -/
theorem Si1TypeDef_Decode_discriminant (s : Si1TypeDef) (t : Nat) (rest : List Nat) :
    (8 < t → Si1TypeDef.Decode s (t :: rest) = .error (.unexpectedType t)) ∧
    (t ≤ 8 → errorOf (Si1TypeDef.Decode s (t :: rest)) = Si1TypeDef.payloadError t rest) := by
  constructor
  · intro ht
    obtain ⟨k, rfl⟩ : ∃ k, t = k + 9 := ⟨t - 9, by omega⟩
    rfl
  · intro ht
    interval_cases t <;>
      simp only [Si1TypeDef.Decode, ReadOneByte, Si1TypeDef.payloadError, Decoder.map] <;>
      split <;> simp_all [errorOf]

/-- C8 at concrete inputs: a leading byte 9 fails whatever follows, and a leading byte
5 (Primitive) followed by the invalid primitive kind 15 fails with the error of that
payload. -/
theorem Si1TypeDef_Decode_discriminant_witness :
    Si1TypeDef.Decode Si1TypeDef.zero [9, 0, 1, 2] = .error (.unexpectedType 9) ∧
      errorOf (Si1TypeDef.Decode Si1TypeDef.zero [5, 15]) = some (.unexpectedType 15) :=
  ⟨(Si1TypeDef_Decode_discriminant Si1TypeDef.zero 9 [0, 1, 2]).1 (by decide),
    (Si1TypeDef_Decode_discriminant Si1TypeDef.zero 5 [15]).2 (by decide)⟩

/-- C9: `Si0TypeDefPrimitive.Decode` into a zero value succeeds for every leading byte
`t` in 0..14, leaves unread exactly what follows that byte and sets the `t`-th flag (in
the order Bool, Char, Str, U8, ..., I256) and no other; for every leading byte
`t >= 15` it fails and the value is still the zero value. -/
theorem Si0TypeDefPrimitive_Decode_spec (t : Nat) (rest : List Nat) :
    (t ≤ 14 →
      (Si0TypeDefPrimitive.Decode Si0TypeDefPrimitive.zero (t :: rest)).result = .ok rest ∧
      (Si0TypeDefPrimitive.Decode Si0TypeDefPrimitive.zero (t :: rest)).target.flags =
        (List.range 15).map (fun i => decide (i = t))) ∧
    (15 ≤ t →
      (Si0TypeDefPrimitive.Decode Si0TypeDefPrimitive.zero (t :: rest)).result =
        .error (.unexpectedType t) ∧
      (Si0TypeDefPrimitive.Decode Si0TypeDefPrimitive.zero (t :: rest)).target =
        Si0TypeDefPrimitive.zero) := by
  constructor
  · intro ht
    interval_cases t <;> exact ⟨rfl, rfl⟩
  · intro ht
    obtain ⟨k, rfl⟩ : ∃ k, t = k + 15 := ⟨t - 15, by omega⟩
    exact ⟨rfl, rfl⟩

/-- C9 at concrete inputs: the byte 5 sets `IsU32` only and leaves the bytes after it;
the byte 15 is refused and sets nothing. -/
theorem Si0TypeDefPrimitive_Decode_spec_witness :
    ((Si0TypeDefPrimitive.Decode Si0TypeDefPrimitive.zero [5, 7, 7]).result = .ok [7, 7] ∧
      (Si0TypeDefPrimitive.Decode Si0TypeDefPrimitive.zero [5, 7, 7]).target.flags =
        (List.range 15).map (fun i => decide (i = 5))) ∧
    ((Si0TypeDefPrimitive.Decode Si0TypeDefPrimitive.zero [15]).result =
        .error (.unexpectedType 15) ∧
      (Si0TypeDefPrimitive.Decode Si0TypeDefPrimitive.zero [15]).target =
        Si0TypeDefPrimitive.zero) :=
  ⟨(Si0TypeDefPrimitive_Decode_spec 5 [7, 7]).1 (by decide),
    (Si0TypeDefPrimitive_Decode_spec 15 []).2 (by decide)⟩

/-- C1 (evaluation at the failing input): `MetadataV14.Decode` accepts
`wireRegistry ++ wireSegment ++ wireRoot`, whose one pallet has its errors section
present; `MetadataV14.Encode` of the decoded document returns nil and writes bytes
that are not `wireSegment`: the presence flag of the errors section is not written.
The input with the errors section absent is accepted as well, and its document is
encoded to the very same bytes although the two segments differ. -/
theorem MetadataV14_roundtrip_fails :
    MetadataV14.Decode (wireRegistry ++ wireSegment ++ wireRoot) = .ok (docErrors, []) ∧
    MetadataV14.Encode docErrors =
      ⟨[4, 0, 0, 0, 0, 0, 0, 0, 0, 0, 0, 0, 0, 0, 0, 4, 0], none⟩ ∧
    (MetadataV14.Encode docErrors).bytes ≠ wireSegment ∧
    (∃ d, MetadataV14.Decode (wireRegistry ++ wireSegmentNoErrors ++ wireRoot) = .ok (d, []) ∧
      MetadataV14.Encode d = MetadataV14.Encode docErrors) ∧
    wireSegmentNoErrors ≠ wireSegment := by
  refine ⟨rfl, rfl, by decide, ⟨_, rfl, rfl⟩, by decide⟩

/-- C10 (evaluation at the failing input): encoding the pallet whose errors section is
present with type id 5 returns nil and writes no presence flag for it, and decoding the
written bytes fails at the errors section (the byte 5 is read as the presence flag)
instead of reproducing the section. -/
theorem PalletMetadataV14_errors_section_roundtrip_fails :
    PalletMetadataV14.Encode palletWithErrors = ⟨[0, 0, 0, 0, 0, 5, 0, 0, 0, 0], none⟩ ∧
    PalletMetadataV14.Decode PalletMetadataV14.zero
        (PalletMetadataV14.Encode palletWithErrors).bytes =
      .error (.unknownOptionPrefix 5) := by
  exact ⟨rfl, rfl⟩

theorem Output_seq_pair (a b : Output) (h : a.err = none) :
    (Output.seq [a, b]).bytes = a.bytes ++ b.bytes ∧ (Output.seq [a, b]).err = b.err := by
  unfold Output.seq
  rw [h]
  unfold Output.seq
  cases hb : b.err with
  | none => simp [Output.seq, Output.write]
  | some e => simp

theorem Output_seq_fail (a : Output) (os : List Output) (e : EncodeError) (h : a.err = some e) :
    Output.seq (a :: os) = ⟨a.bytes, some e⟩ := by
  unfold Output.seq
  rw [h]

/-- C11 as stated fails: with the Map case selected and a hasher that has no kind
selected, `StorageEntryTypeV14.Encode` returns an error although a case is selected,
after writing the tag byte and the length of the hasher list. -/
theorem StorageEntryTypeV14_Encode_error_with_case_selected :
    entryTypeBadMap.IsMap = true ∧
      entryTypeBadMap.Encode = ⟨[1, 4], some .noCaseSelected⟩ := by
  decide

/-- C11 (amended): `StorageEntryTypeV14.Encode` with no case selected returns the error
and writes no bytes; with `IsType` it writes the tag byte 0 followed by the encoding of
`AsType` and returns nil; with `IsMap` (and not `IsType`) it writes the tag byte 1
followed by what encoding `AsMap` writes and returns the error of that encoding, if
any; so it returns an error exactly when no case is selected or the Map payload fails
to encode. -/
theorem StorageEntryTypeV14_Encode_spec (s : StorageEntryTypeV14) :
    (s.IsType = false → s.IsMap = false → s.Encode = ⟨[], some .noCaseSelected⟩) ∧
    (s.IsType = true →
      s.Encode.bytes = 0 :: (encodeSi1LookupTypeId s.AsType).bytes ∧ s.Encode.err = none) ∧
    (s.IsType = false → s.IsMap = true →
      s.Encode.bytes = 1 :: (encodeMapTypeV14 s.AsMap).bytes ∧
      s.Encode.err = (encodeMapTypeV14 s.AsMap).err) ∧
    (s.Encode.err ≠ none ↔
      (s.IsType = false ∧ s.IsMap = false) ∨
      (s.IsType = false ∧ s.IsMap = true ∧ (encodeMapTypeV14 s.AsMap).err ≠ none)) := by
  have hnone : s.IsType = false → s.IsMap = false → s.Encode = ⟨[], some .noCaseSelected⟩ := by
    intro h1 h2
    simp [StorageEntryTypeV14.Encode, h1, h2, Output.fail]
  have htype : s.IsType = true →
      s.Encode.bytes = 0 :: (encodeSi1LookupTypeId s.AsType).bytes ∧ s.Encode.err = none := by
    intro h1
    have h := Output_seq_pair (encodeU8 0) (encodeSi1LookupTypeId s.AsType) rfl
    simp only [StorageEntryTypeV14.Encode, h1, if_true]
    exact ⟨h.1, h.2⟩
  have hmap : s.IsType = false → s.IsMap = true →
      s.Encode.bytes = 1 :: (encodeMapTypeV14 s.AsMap).bytes ∧
      s.Encode.err = (encodeMapTypeV14 s.AsMap).err := by
    intro h1 h2
    have h := Output_seq_pair (encodeU8 1) (encodeMapTypeV14 s.AsMap) rfl
    simp only [StorageEntryTypeV14.Encode, h1, h2, if_true, Bool.false_eq_true, if_false]
    exact ⟨h.1, h.2⟩
  refine ⟨hnone, htype, hmap, ?_⟩
  cases h1 : s.IsType with
  | true =>
    have := (htype h1).2
    simp [this]
  | false =>
    cases h2 : s.IsMap with
    | true =>
      have := (hmap h1 h2).2
      simp [this]
    | false =>
      have := hnone h1 h2
      simp [this]

/-- C11 (amended) at concrete inputs: the zero value (no case selected) is refused with
no bytes written, and the Plain case with type id 7 is written as the tag 0 and the
type id. -/
theorem StorageEntryTypeV14_Encode_spec_witness :
    StorageEntryTypeV14.zero.Encode = ⟨[], some .noCaseSelected⟩ ∧
      ((StorageEntryTypeV14.Encode ⟨true, ⟨7⟩, false, MapTypeV14.zero⟩).bytes =
          0 :: (encodeSi1LookupTypeId ⟨7⟩).bytes ∧
        (StorageEntryTypeV14.Encode ⟨true, ⟨7⟩, false, MapTypeV14.zero⟩).err = none) :=
  ⟨(StorageEntryTypeV14_Encode_spec StorageEntryTypeV14.zero).1 rfl rfl,
    (StorageEntryTypeV14_Encode_spec ⟨true, ⟨7⟩, false, MapTypeV14.zero⟩).2.1 rfl⟩

/-- C12: `MetadataV14.Encode` depends only on `Pallets` and `Extrinsic`: two documents
that agree on them give the same bytes and the same error, whatever `Lookup` and `Type`
are; when encoding the pallets returns nil the bytes written are those of the pallets
followed by those of the extrinsic metadata and the error is that of the latter; when
encoding the pallets fails, its bytes and its error are the result. -/
theorem MetadataV14_Encode_depends_on (m1 m2 : MetadataV14) :
    (m1.Pallets = m2.Pallets → m1.Extrinsic = m2.Extrinsic → m1.Encode = m2.Encode) ∧
    ((encodeSlice PalletMetadataV14.Encode m1.Pallets).err = none →
      m1.Encode.bytes =
        (encodeSlice PalletMetadataV14.Encode m1.Pallets).bytes ++ m1.Extrinsic.Encode.bytes ∧
      m1.Encode.err = m1.Extrinsic.Encode.err) ∧
    (∀ e, (encodeSlice PalletMetadataV14.Encode m1.Pallets).err = some e →
      m1.Encode = ⟨(encodeSlice PalletMetadataV14.Encode m1.Pallets).bytes, some e⟩) := by
  refine ⟨?_, ?_, ?_⟩
  · intro hp he
    unfold MetadataV14.Encode
    rw [hp, he]
  · intro h
    exact Output_seq_pair _ _ h
  · intro e h
    exact Output_seq_fail _ _ e h

/-- C12 at concrete inputs: the scenario document and the same document with another
registry and root type id are encoded alike, and the output is the pallets followed by
the extrinsic metadata. -/
theorem MetadataV14_Encode_depends_on_witness :
    docSystem.Encode = docSystemOtherRegistry.Encode ∧
      (docSystem.Encode.bytes =
          (encodeSlice PalletMetadataV14.Encode docSystem.Pallets).bytes ++
            docSystem.Extrinsic.Encode.bytes ∧
        docSystem.Encode.err = docSystem.Extrinsic.Encode.err) :=
  ⟨(MetadataV14_Encode_depends_on docSystem docSystemOtherRegistry).1 rfl rfl,
    (MetadataV14_Encode_depends_on docSystem docSystemOtherRegistry).2.1 (by decide)⟩

theorem Si1TypeDef_Decode_ok_cases (s s2 : Si1TypeDef) (t : Nat) (rest r : List Nat)
    (h : Si1TypeDef.Decode s (t :: rest) = .ok (s2, r)) :
    t ≤ 8 ∧ s2.flags = s.flags.set t true ∧
      Si1TypeDef.eraseCase t s2 = Si1TypeDef.eraseCase t s := by
  by_cases ht : t ≤ 8
  · refine ⟨ht, ?_⟩
    interval_cases t <;>
      simp only [Si1TypeDef.Decode, ReadOneByte, Decoder.map] at h <;>
      split at h <;>
      simp only [Except.ok.injEq, Prod.mk.injEq, reduceCtorEq] at h <;>
      (obtain ⟨h1, _⟩ := h; subst h1; exact ⟨rfl, rfl⟩)
  · exfalso
    obtain ⟨k, rfl⟩ : ∃ k, t = k + 9 := ⟨t - 9, by omega⟩
    have he : Si1TypeDef.Decode s ((k + 9) :: rest) = .error (.unexpectedType (k + 9)) := rfl
    rw [he] at h
    cases h

theorem Si1TypeDef_flags_length (s : Si1TypeDef) : s.flags.length = 9 := rfl

theorem event_loop_eq (eventID : EventID) (ps : List PalletMetadataV14) :
    MetadataV14.FindEventNamesForEventID.loop eventID ps =
      match ps.find? (fun p => p.HasEvents && decide (p.Index = eventID.pallet)) with
      | none => .error .moduleIndexOutOfRange
      | some p =>
        (match p.Constants[eventID.variant]? with
          | none => .panic
          | some c => .ok (p.Name, c.Name)) := by
  induction ps with
  | nil => rfl
  | cons mod rest ih =>
    unfold MetadataV14.FindEventNamesForEventID.loop
    by_cases he : mod.HasEvents = true
    · by_cases hi : mod.Index = eventID.pallet
      · simp [List.find?, he, hi]
      · simp [List.find?, he, hi, ih]
    · have he2 : mod.HasEvents = false := by simpa using he
      simp [List.find?, he2, ih]

/-- C13: after a successful `Si1TypeDef.Decode` into a zero-valued `Si1TypeDef` the
input starts with a discriminant byte `t` in 0..8 and, of the nine `Is*` flags in the
order Composite, Variant, Sequence, Array, Tuple, Primitive, Compact, BitSequence,
HistoricMetaCompat, exactly the one at position `t` is true. -/
theorem Si1TypeDef_Decode_one_flag (inp rest : List Nat) (s2 : Si1TypeDef)
    (h : Si1TypeDef.Decode Si1TypeDef.zero inp = .ok (s2, rest)) :
    ∃ t tl, inp = t :: tl ∧ t ≤ 8 ∧
      s2.flags = (List.range 9).map (fun i => decide (i = t)) := by
  cases inp with
  | nil => simp [Si1TypeDef.Decode, ReadOneByte] at h
  | cons t tl =>
    obtain ⟨ht, hflags, _⟩ := Si1TypeDef_Decode_ok_cases Si1TypeDef.zero s2 t tl rest h
    refine ⟨t, tl, rfl, ht, ?_⟩
    rw [hflags]
    interval_cases t <;> rfl

/-- C13 at a concrete input: the bytes `2, 8` (Sequence of type id 2) decode into a
zero value with the flag `IsSequence` alone. -/
theorem Si1TypeDef_Decode_one_flag_witness :
    ∃ t tl, [2, 8] = t :: tl ∧ t ≤ 8 ∧
      Si1TypeDef.flags { Si1TypeDef.zero with IsSequence := true, AsSequence := ⟨⟨2⟩⟩ } =
        (List.range 9).map (fun i => decide (i = t)) :=
  Si1TypeDef_Decode_one_flag [2, 8] [] _ rfl

/-- C14: if `p` is the first pallet in wire order with events enabled and declared
`Index` equal to the pallet index of the event id, and the variant index is a valid
position in `p.Constants`, then `FindEventNamesForEventID` returns `p.Name` and the
name of the constant at that position with a nil error; if no pallet with events
enabled has that declared index, it returns an error. -/
theorem FindEventNamesForEventID_spec (m : MetadataV14) (eventID : EventID) :
    (∀ p c,
      m.Pallets.find? (fun p => p.HasEvents && decide (p.Index = eventID.pallet)) = some p →
      p.Constants[eventID.variant]? = some c →
      m.FindEventNamesForEventID eventID = .ok (p.Name, c.Name)) ∧
    ((¬ ∃ p ∈ m.Pallets, p.HasEvents = true ∧ p.Index = eventID.pallet) →
      m.FindEventNamesForEventID eventID = .error .moduleIndexOutOfRange) := by
  constructor
  · intro p c hp hc
    unfold MetadataV14.FindEventNamesForEventID
    rw [event_loop_eq, hp]
    simp only [hc]
  · intro hno
    have hf : m.Pallets.find? (fun p => p.HasEvents && decide (p.Index = eventID.pallet)) = none := by
      rw [List.find?_eq_none]
      intro p hp hsat
      simp only [Bool.and_eq_true, decide_eq_true_eq] at hsat
      exact hno ⟨p, hp, hsat.1, hsat.2⟩
    unfold MetadataV14.FindEventNamesForEventID
    rw [event_loop_eq, hf]

/-- C14 at concrete inputs: on the scenario document the event id `(0, 0)` resolves to
`System` and `BlockWeights`, and the event id `(4, 0)` of no pallet gives the error. -/
theorem FindEventNamesForEventID_spec_witness :
    docSystem.FindEventNamesForEventID ⟨0, 0⟩ = .ok (txtSystem, txtBlockWeights) ∧
      docSystem.FindEventNamesForEventID ⟨4, 0⟩ = .error .moduleIndexOutOfRange :=
  ⟨(FindEventNamesForEventID_spec docSystem ⟨0, 0⟩).1 palletSystem
      ⟨txtBlockWeights, ⟨0⟩, [0, 1], []⟩ (by decide) (by decide),
    (FindEventNamesForEventID_spec docSystem ⟨4, 0⟩).2 (by decide)⟩

theorem Si1LookupTypeId_Decode_of_compact (inp rest : List Nat) (n : Nat)
    (h : DecodeUintCompact inp = .ok (n, rest)) :
    Si1LookupTypeId.Decode inp = .ok (⟨n % 4294967296⟩, rest) := by
  have hm : n % 18446744073709551616 % 4294967296 = n % 4294967296 :=
    Nat.mod_mod_of_dvd n (by norm_num)
  simp only [Si1LookupTypeId.Decode, Decoder.map, h, hm]

/-- C17: `Si1LookupTypeId.Decode` fails only when the compact integer itself cannot be
read; for every compact value `n` the primitive layer yields, the stored type id is
`n mod 2^32`, which is `n` exactly when `n < 2^32`, and two wire values that differ by
a multiple of `2^32` decode to the same type id. -/
theorem Si1LookupTypeId_Decode_mod (inp : List Nat) :
    (∀ n rest, DecodeUintCompact inp = .ok (n, rest) →
      Si1LookupTypeId.Decode inp = .ok (⟨n % 4294967296⟩, rest) ∧
      (n % 4294967296 = n ↔ n < 4294967296)) ∧
    (∀ e, Si1LookupTypeId.Decode inp = .error e → DecodeUintCompact inp = .error e) ∧
    (∀ inp2 n k rest rest2, DecodeUintCompact inp = .ok (n, rest) →
      DecodeUintCompact inp2 = .ok (n + k * 4294967296, rest2) →
      ∃ id, Si1LookupTypeId.Decode inp = .ok (id, rest) ∧
        Si1LookupTypeId.Decode inp2 = .ok (id, rest2)) := by
  refine ⟨?_, ?_, ?_⟩
  · intro n rest h
    exact ⟨Si1LookupTypeId_Decode_of_compact inp rest n h, Nat.mod_eq_iff_lt (by norm_num)⟩
  · intro e h
    cases hc : DecodeUintCompact inp with
    | error e2 =>
      simp only [Si1LookupTypeId.Decode, Decoder.map, hc, Except.error.injEq] at h
      rw [h]
    | ok v =>
      simp [Si1LookupTypeId.Decode, Decoder.map, hc] at h
  · intro inp2 n k rest rest2 h1 h2
    refine ⟨⟨n % 4294967296⟩, Si1LookupTypeId_Decode_of_compact inp rest n h1, ?_⟩
    have h := Si1LookupTypeId_Decode_of_compact inp2 rest2 _ h2
    rw [Nat.add_mul_mod_self_right] at h
    exact h

/-- C17 at concrete inputs: the one-byte compact form of 1 and the big-integer compact
form of `2^32 + 1` are both accepted and both decode to the type id 1. -/
theorem Si1LookupTypeId_Decode_mod_witness :
    (Si1LookupTypeId.Decode [4] = .ok (⟨1 % 4294967296⟩, []) ∧
      (1 % 4294967296 = 1 ↔ 1 < 4294967296)) ∧
    (∃ id, Si1LookupTypeId.Decode [4] = .ok (id, []) ∧
      Si1LookupTypeId.Decode [7, 1, 0, 0, 0, 1] = .ok (id, [])) :=
  ⟨(Si1LookupTypeId_Decode_mod [4]).1 1 [] rfl,
    (Si1LookupTypeId_Decode_mod [4]).2.2 [7, 1, 0, 0, 0, 1] 1 1 [] [] rfl rfl⟩

/-- C18: a successful `Si1TypeDef.Decode` with discriminant `t` into any target sets
the `t`-th `Is*` flag and leaves the target as it was outside case `t`: every other
`Is*` flag and every other `As*` payload is unchanged; so a target that already had
another case selected has both cases selected afterwards. -/
theorem Si1TypeDef_Decode_frame (s s2 : Si1TypeDef) (t : Nat) (rest r : List Nat)
    (h : Si1TypeDef.Decode s (t :: rest) = .ok (s2, r)) :
    t ≤ 8 ∧ s2.flags[t]? = some true ∧
      Si1TypeDef.eraseCase t s2 = Si1TypeDef.eraseCase t s ∧
      (∀ j, j ≠ t → s2.flags[j]? = s.flags[j]?) ∧
      (∀ j, j ≠ t → s.flags[j]? = some true →
        s2.flags[j]? = some true ∧ s2.flags[t]? = some true) := by
  obtain ⟨ht, hflags, hframe⟩ := Si1TypeDef_Decode_ok_cases s s2 t rest r h
  have hlen : t < s.flags.length := by
    rw [Si1TypeDef_flags_length]
    omega
  have hset : s2.flags[t]? = some true := by
    rw [hflags, List.getElem?_set_self hlen]
  have hother : ∀ j, j ≠ t → s2.flags[j]? = s.flags[j]? := by
    intro j hj
    rw [hflags, List.getElem?_set_ne (Ne.symm hj)]
  refine ⟨ht, hset, hframe, hother, ?_⟩
  intro j hj hsel
  exact ⟨by rw [hother j hj, hsel], hset⟩

/-- C18 at a concrete input: decoding the bytes `6, 8` (Compact of type id 2) into a
target that has the Sequence case selected leaves `IsSequence` and `AsSequence` as they
were and selects `IsCompact` as well. -/
theorem Si1TypeDef_Decode_frame_witness :
    Si1TypeDef.Decode typeDefSequence [6, 8] =
        .ok ({ typeDefSequence with IsCompact := true, AsCompact := ⟨⟨2⟩⟩ }, []) ∧
      (Si1TypeDef.flags { typeDefSequence with IsCompact := true, AsCompact := ⟨⟨2⟩⟩ })[2]? =
        some true ∧
      (Si1TypeDef.flags { typeDefSequence with IsCompact := true, AsCompact := ⟨⟨2⟩⟩ })[6]? =
        some true :=
  ⟨rfl,
    (Si1TypeDef_Decode_frame typeDefSequence _ 6 [8] [] rfl).2.2.2.2 2 (by decide) rfl⟩

theorem StorageEntryTypeV14_Encode_bytes_type (s : StorageEntryTypeV14) (h : s.IsType = true) :
    s.Encode.bytes = 0 :: (encodeSi1LookupTypeId s.AsType).bytes := by
  have hp := Output_seq_pair (encodeU8 0) (encodeSi1LookupTypeId s.AsType) rfl
  simp only [StorageEntryTypeV14.Encode, h, if_true]
  exact hp.1

theorem StorageEntryTypeV14_Encode_bytes_map (s : StorageEntryTypeV14) (h1 : s.IsType = false)
    (h2 : s.IsMap = true) :
    s.Encode.bytes = 1 :: (encodeMapTypeV14 s.AsMap).bytes := by
  have hp := Output_seq_pair (encodeU8 1) (encodeMapTypeV14 s.AsMap) rfl
  simp only [StorageEntryTypeV14.Encode, h1, h2, if_true, Bool.false_eq_true, if_false]
  exact hp.1

theorem StorageEntryTypeV14_Encode_eq_EncodeWith (s : StorageEntryTypeV14) :
    s.Encode = StorageEntryTypeV14.EncodeWith encodeSi1LookupTypeId encodeMapTypeV14 s :=
  rfl

theorem StorageEntryTypeV14_Decode_eq_DecodeWith (s : StorageEntryTypeV14) :
    StorageEntryTypeV14.Decode s =
      StorageEntryTypeV14.DecodeWith Si1LookupTypeId.Decode decodeMapTypeV14 s :=
  rfl

theorem EncodeWith_type (encType : Si1LookupTypeId → Output) (encMap : MapTypeV14 → Output)
    (s : StorageEntryTypeV14) (h : s.IsType = true) :
    (StorageEntryTypeV14.EncodeWith encType encMap s).bytes = 0 :: (encType s.AsType).bytes ∧
      (StorageEntryTypeV14.EncodeWith encType encMap s).err = (encType s.AsType).err := by
  have hp := Output_seq_pair (encodeU8 0) (encType s.AsType) rfl
  simp only [StorageEntryTypeV14.EncodeWith, h, if_true]
  exact hp

theorem EncodeWith_map (encType : Si1LookupTypeId → Output) (encMap : MapTypeV14 → Output)
    (s : StorageEntryTypeV14) (h1 : s.IsType = false) (h2 : s.IsMap = true) :
    (StorageEntryTypeV14.EncodeWith encType encMap s).bytes = 1 :: (encMap s.AsMap).bytes ∧
      (StorageEntryTypeV14.EncodeWith encType encMap s).err = (encMap s.AsMap).err := by
  have hp := Output_seq_pair (encodeU8 1) (encMap s.AsMap) rfl
  simp only [StorageEntryTypeV14.EncodeWith, h1, h2, if_true, Bool.false_eq_true, if_false]
  exact hp

theorem leBytes_succ (fuel n : Nat) (h : n ≠ 0) :
    leBytes (fuel + 1) n = n % 256 :: leBytes fuel (n / 256) := by
  simp [leBytes, h]

theorem leBytes_of_zero (fuel : Nat) : leBytes fuel 0 = [] := by
  cases fuel <;> simp [leBytes]

theorem compact_roundtrip (n : Nat) (h : n < 4294967296) (rest : List Nat) :
    (EncodeUintCompact n).err = none ∧
      DecodeUintCompact ((EncodeUintCompact n).bytes ++ rest) = .ok (n, rest) := by
  unfold EncodeUintCompact
  by_cases h1 : n < 64
  · have hm : n * 4 % 4 = 0 := by omega
    have hd : n * 4 / 4 = n := by omega
    simp [h1, Output.write, DecodeUintCompact, ReadOneByte, hm, hd]
  · by_cases h2 : n < 16384
    · have hm : (n * 4 + 1) % 256 % 4 = 1 := by omega
      have hd : ((n * 4 + 1) % 256 + 256 * ((n * 4 + 1) / 256)) / 4 = n := by omega
      simp [h1, h2, Output.write, DecodeUintCompact, ReadOneByte, readBytes, Decoder.map,
        leValue, hm, hd]
    · by_cases h3 : n < 1073741824
      · have hm : (n * 4 + 2) % 256 % 4 = 2 := by omega
        have hd : ((n * 4 + 2) % 256 + 256 * ((n * 4 + 2) / 256 % 256 +
            256 * ((n * 4 + 2) / 65536 % 256 + 256 * ((n * 4 + 2) / 16777216)))) / 4 = n := by
          omega
        simp [h1, h2, h3, Output.write, DecodeUintCompact, ReadOneByte, readBytes, Decoder.map,
          leValue, hm, hd]
      · have h4 : ¬ 2 ^ 536 ≤ n := by
          have : (4294967296 : Nat) ≤ 2 ^ 536 := by norm_num
          omega
        have hb : leBytes 67 n =
            [n % 256, n / 256 % 256, n / 256 / 256 % 256, n / 256 / 256 / 256 % 256] := by
          have e1 : n ≠ 0 := by omega
          have e2 : n / 256 ≠ 0 := by omega
          have e3 : n / 256 / 256 ≠ 0 := by omega
          have e4 : n / 256 / 256 / 256 ≠ 0 := by omega
          have e5 : n / 256 / 256 / 256 / 256 = 0 := by omega
          rw [show (67 : Nat) = 63 + 1 + 1 + 1 + 1 from rfl, leBytes_succ _ _ e1,
            leBytes_succ _ _ e2, leBytes_succ _ _ e3, leBytes_succ _ _ e4, e5, leBytes_of_zero]
        have hd : n % 256 + 256 * (n / 256 % 256 + 256 * (n / 256 / 256 % 256 +
            256 * (n / 256 / 256 / 256 % 256))) = n := by omega
        rw [if_neg h1, if_neg h2, if_neg h3, if_neg h4, hb]
        simp [Output.write, DecodeUintCompact, ReadOneByte, readBytes, Decoder.map, leValue, hd]

theorem typeId_compact_roundtrip (x : Si1LookupTypeId) (h : x.inRange) (rest : List Nat) :
    (encodeSi1LookupTypeIdCompact x).err = none ∧
      Si1LookupTypeId.Decode ((encodeSi1LookupTypeIdCompact x).bytes ++ rest) = .ok (x, rest) := by
  obtain ⟨he, hd⟩ := compact_roundtrip x.U32 h rest
  refine ⟨he, ?_⟩
  unfold encodeSi1LookupTypeIdCompact
  rw [Si1LookupTypeId_Decode_of_compact _ rest x.U32 hd, Nat.mod_eq_of_lt h]

theorem hasher_roundtrip (k : StorageHasherV10) (h : k ∈ StorageHasherV10.kinds)
    (rest : List Nat) :
    k.Encode.err = none ∧
      StorageHasherV10.Decode StorageHasherV10.zero (k.Encode.bytes ++ rest) = .ok (k, rest) := by
  simp only [StorageHasherV10.kinds, List.mem_cons, List.mem_singleton, List.not_mem_nil,
    or_false] at h
  rcases h with rfl | rfl | rfl | rfl | rfl | rfl | rfl <;> exact ⟨rfl, rfl⟩

theorem Output_seq_cons_ok (a : Output) (os : List Output) (h : a.err = none) :
    (Output.seq (a :: os)).bytes = a.bytes ++ (Output.seq os).bytes ∧
      (Output.seq (a :: os)).err = (Output.seq os).err := by
  constructor
  · conv_lhs => unfold Output.seq
    rw [h]
  · conv_lhs => unfold Output.seq
    rw [h]

theorem items_roundtrip {α : Type} (enc : α → Output) (dec : Decoder α) (xs : List α)
    (hx : ∀ x ∈ xs, (enc x).err = none ∧ ∀ rest, dec ((enc x).bytes ++ rest) = .ok (x, rest))
    (rest : List Nat) :
    (Output.seq (xs.map enc)).err = none ∧
      decodeItems dec xs.length ((Output.seq (xs.map enc)).bytes ++ rest) = .ok (xs, rest) := by
  induction xs with
  | nil => exact ⟨rfl, rfl⟩
  | cons x tl ih =>
    obtain ⟨hxe, hxd⟩ := hx x (by simp)
    obtain ⟨ihe, ihd⟩ := ih (fun y hy => hx y (by simp [hy]))
    obtain ⟨hb, he⟩ := Output_seq_cons_ok (enc x) (tl.map enc) hxe
    refine ⟨by rw [List.map_cons, he, ihe], ?_⟩
    rw [List.map_cons, hb, List.append_assoc, List.length_cons]
    simp only [decodeItems, hxd, ihd]

theorem slice_roundtrip {α : Type} (enc : α → Output) (dec : Decoder α) (xs : List α)
    (hlen : xs.length < 4294967296)
    (hx : ∀ x ∈ xs, (enc x).err = none ∧ ∀ rest, dec ((enc x).bytes ++ rest) = .ok (x, rest))
    (rest : List Nat) :
    (encodeSlice enc xs).err = none ∧
      decodeSlice dec ((encodeSlice enc xs).bytes ++ rest) = .ok (xs, rest) := by
  obtain ⟨hie, hid⟩ := items_roundtrip enc dec xs hx rest
  obtain ⟨hce, hcd⟩ := compact_roundtrip xs.length hlen ((Output.seq (xs.map enc)).bytes ++ rest)
  obtain ⟨hb, he⟩ := Output_seq_cons_ok (EncodeUintCompact xs.length) (xs.map enc) hce
  have hgt : ¬ xs.length > 4294967295 := by omega
  unfold encodeSlice
  rw [if_neg hgt]
  refine ⟨by rw [he, hie], ?_⟩
  rw [hb, List.append_assoc]
  unfold decodeSlice
  simp only [hcd, hgt, if_false, hid]

theorem map_compact_roundtrip (m : MapTypeV14) (h : m.wellFormed) (rest : List Nat) :
    (encodeMapTypeV14Compact m).err = none ∧
      decodeMapTypeV14 ((encodeMapTypeV14Compact m).bytes ++ rest) = .ok (m, rest) := by
  obtain ⟨hk, hlen, hkey, hval⟩ := h
  obtain ⟨hve, hvd⟩ := typeId_compact_roundtrip m.Value hval rest
  obtain ⟨hke, hkd⟩ := typeId_compact_roundtrip m.Key hkey
    ((encodeSi1LookupTypeIdCompact m.Value).bytes ++ rest)
  obtain ⟨hse, hsd⟩ := slice_roundtrip StorageHasherV10.Encode
    (StorageHasherV10.Decode StorageHasherV10.zero) m.Hasher hlen
    (fun k hkm => ⟨(hasher_roundtrip k (hk k hkm) []).1, fun r => (hasher_roundtrip k (hk k hkm) r).2⟩)
    ((encodeSi1LookupTypeIdCompact m.Key).bytes ++
      ((encodeSi1LookupTypeIdCompact m.Value).bytes ++ rest))
  unfold encodeMapTypeV14Compact
  obtain ⟨hb1, he1⟩ := Output_seq_cons_ok (encodeSlice StorageHasherV10.Encode m.Hasher)
    [encodeSi1LookupTypeIdCompact m.Key, encodeSi1LookupTypeIdCompact m.Value] hse
  obtain ⟨hb2, he2⟩ := Output_seq_pair (encodeSi1LookupTypeIdCompact m.Key)
    (encodeSi1LookupTypeIdCompact m.Value) hke
  refine ⟨by rw [he1, he2, hve], ?_⟩
  rw [hb1, hb2, List.append_assoc, List.append_assoc]
  simp only [decodeMapTypeV14, Decoder.andThen, hsd, hkd, hvd, Decoder.ret]

theorem DecodeWith_EncodeWith_type (encType : Si1LookupTypeId → Output)
    (decType : Decoder Si1LookupTypeId) (encMap : MapTypeV14 → Output)
    (decMap : Decoder MapTypeV14) (s : StorageEntryTypeV14) (rest : List Nat)
    (h1 : s.IsType = true) (h2 : s.IsMap = false)
    (hd : decType ((encType s.AsType).bytes ++ rest) = .ok (s.AsType, rest)) :
    StorageEntryTypeV14.DecodeWith decType decMap StorageEntryTypeV14.zero
        ((StorageEntryTypeV14.EncodeWith encType encMap s).bytes ++ rest) =
      .ok ({ s with AsMap := MapTypeV14.zero }, rest) := by
  rw [(EncodeWith_type encType encMap s h1).1, List.cons_append]
  simp only [StorageEntryTypeV14.DecodeWith, ReadOneByte, Decoder.map, hd]
  cases s
  simp_all [StorageEntryTypeV14.zero]

theorem DecodeWith_EncodeWith_map (encType : Si1LookupTypeId → Output)
    (decType : Decoder Si1LookupTypeId) (encMap : MapTypeV14 → Output)
    (decMap : Decoder MapTypeV14) (s : StorageEntryTypeV14) (rest : List Nat)
    (h1 : s.IsType = false) (h2 : s.IsMap = true)
    (hd : decMap ((encMap s.AsMap).bytes ++ rest) = .ok (s.AsMap, rest)) :
    StorageEntryTypeV14.DecodeWith decType decMap StorageEntryTypeV14.zero
        ((StorageEntryTypeV14.EncodeWith encType encMap s).bytes ++ rest) =
      .ok ({ s with AsType := Si1LookupTypeId.zero }, rest) := by
  rw [(EncodeWith_map encType encMap s h1 h2).1, List.cons_append]
  simp only [StorageEntryTypeV14.DecodeWith, ReadOneByte, Decoder.map, hd]
  cases s
  simp_all [StorageEntryTypeV14.zero]

theorem StorageEntryTypeV14_Decode_reads_mirror (s : StorageEntryTypeV14) (rest : List Nat) :
    (s.IsType = true → s.IsMap = false → s.AsType.inRange →
      StorageEntryTypeV14.Decode StorageEntryTypeV14.zero
          ((StorageEntryTypeV14.EncodeWith encodeSi1LookupTypeIdCompact
            encodeMapTypeV14Compact s).bytes ++ rest) =
        .ok ({ s with AsMap := MapTypeV14.zero }, rest)) ∧
    (s.IsType = false → s.IsMap = true → s.AsMap.wellFormed →
      StorageEntryTypeV14.Decode StorageEntryTypeV14.zero
          ((StorageEntryTypeV14.EncodeWith encodeSi1LookupTypeIdCompact
            encodeMapTypeV14Compact s).bytes ++ rest) =
        .ok ({ s with AsType := Si1LookupTypeId.zero }, rest)) := by
  constructor
  · intro h1 h2 hr
    rw [StorageEntryTypeV14_Decode_eq_DecodeWith]
    exact DecodeWith_EncodeWith_type _ _ _ _ s rest h1 h2
      (typeId_compact_roundtrip s.AsType hr rest).2
  · intro h1 h2 hw
    rw [StorageEntryTypeV14_Decode_eq_DecodeWith]
    exact DecodeWith_EncodeWith_map _ _ _ _ s rest h1 h2
      (map_compact_roundtrip s.AsMap hw rest).2

/-- C16 (evaluation at the failing input): `ExtrinsicMetadataV14.Encode` of the value
with envelope type id 5, version 4 and no signed extensions returns nil and writes the
type id as the four fixed-width bytes `5, 0, 0, 0`, not as the compact form `20`;
`ExtrinsicMetadataV14.Decode` reads these bytes as type id 1, version 0 and leaves two
bytes unread, so the value is not reproduced. -/
theorem ExtrinsicMetadataV14_value_not_reproduced :
    extrinsicFive.Encode = ⟨[5, 0, 0, 0, 4, 0], none⟩ ∧
    (encodeSi1LookupTypeId extrinsicFive.Typ).bytes = [5, 0, 0, 0] ∧
    Si1LookupTypeId.Decode [20] = .ok (extrinsicFive.Typ, []) ∧
    ExtrinsicMetadataV14.Decode extrinsicFive.Encode.bytes = .ok (⟨⟨1⟩, 0, []⟩, [4, 0]) ∧
    (⟨⟨1⟩, 0, []⟩ : ExtrinsicMetadataV14) ≠ extrinsicFive := by
  refine ⟨rfl, rfl, rfl, rfl, by decide⟩

end MetadataV14Model
